import Mathlib

/-!
# Verification of the Vikunja `ProjectDuplicate` subsystem

Shallow embedding of `pkg/models/project_duplicate.go` (the `ProjectDuplicate.CanCreate`,
`ProjectDuplicate.Create` and `duplicateTasks` functions).

Modelling conventions:

* int64 identities become `Nat`; the Go zero value is `0`.
* Go maps `map[int64]int64` become association lists (`List (Nat × Nat)`), read through
  `List.lookup`; insertion conses on the front, so a later write for the same key shadows
  an earlier one exactly like a Go map overwrite, and a missing key reads as the zero
  value (`mapGetD`) or as `(0, false)` in the two-result form (`List.lookup` = `none`).
* The xorm session is split into a read-only `Env` (the source rows returned by the
  queries, plus the outcomes of the fallible collaborator calls, keyed by the ids the Go
  code has in scope at the call site) and a mutable `DupState` (the rows written for the
  destination project, a fresh-identity counter used by row insertion, the set of open
  source-file handles, and the random-generator call counter).
* Fallible steps short-circuit, but the state at the moment of the error is kept:
  every step returns `DupState × Option DupError` (`none` = success), mirroring the Go
  `return err` paths while keeping error-path states observable (needed to reason about
  file-handle leaks).
* A raw `s.Insert` / `s.Find` on the session is modelled as total: its Go error branch
  propagates database failures only, which no verified property is about.  The named
  fallible collaborators (`CreateProject`, `Bucket.Create`, `createTask`,
  `LoadFileMetaByID`, `LoadFileByID`, `NewAttachment`, `files.Create`,
  `GetUnsplashPhotoByFileID`, `addNewAssigneeByID`) keep their error outcomes, supplied
  by `Env` oracles.
* Row insertion assigns `st.nextId` as the new row identity when the inserted row's
  identity field is `0` (the xorm auto-increment convention); a non-zero identity would
  be kept as-is.  The Go code clears each identity field before inserting, and the
  embedding mirrors those writes literally.
-/

namespace Vikunja

/-- Error classes distinguished by the duplication code. `other` stands for any
unclassified (database etc.) error. -/
inductive DupError where
  | identifierNotUnique : DupError
  | fileDoesNotExist : DupError
  | fileIsNotUnsplashFile : DupError
  | userNoAccess : DupError
  | other : Nat → DupError
deriving Repr, DecidableEq

/-- The `IsErrProjectIdentifierIsNotUnique` from the models package. -/
def IsErrProjectIdentifierIsNotUnique : DupError → Bool
  | DupError.identifierNotUnique => true
  | _ => false

/-- The `files.IsErrFileDoesNotExist`. -/
def IsErrFileDoesNotExist : DupError → Bool
  | DupError.fileDoesNotExist => true
  | _ => false

/-- The `files.IsErrFileIsNotUnsplashFile`. -/
def IsErrFileIsNotUnsplashFile : DupError → Bool
  | DupError.fileIsNotUnsplashFile => true
  | _ => false

/-- The `IsErrUserDoesNotHaveAccessToProject`. -/
def IsErrUserDoesNotHaveAccessToProject : DupError → Bool
  | DupError.userNoAccess => true
  | _ => false

/-- The old-id → new-id maps (`bucketMap`, `taskMap`). -/
abbrev IdMap := List (Nat × Nat)

/-- Go map read `m[k]`: zero value when the key is absent. -/
def mapGetD (m : IdMap) (k : Nat) : Nat := (m.lookup k).getD 0

/-- Go map read `_, ok := m[k]`. -/
def mapHas (m : IdMap) (k : Nat) : Bool := (m.lookup k).isSome

/-- The `models.Project` (the fields the duplication touches). -/
structure Project where
  id : Nat
  title : String
  identifier : String
  ownerID : Nat
  namespaceID : Nat
  backgroundFileID : Nat
  backgroundBlurHash : String
deriving Repr, DecidableEq

/-- The `models.Bucket`. -/
structure Bucket where
  id : Nat
  projectID : Nat
  title : String
deriving Repr, DecidableEq

/-- The `models.Task` (the fields the duplication touches; `uid` is the calendar-sync UID). -/
structure Task where
  id : Nat
  projectID : Nat
  bucketID : Nat
  uid : String
  title : String
deriving Repr, DecidableEq

/-- The `models.TaskAttachment`. -/
structure TaskAttachment where
  id : Nat
  taskID : Nat
  fileID : Nat
deriving Repr, DecidableEq

/-- The `models.LabelTask` (label ↔ task join row). -/
structure LabelTask where
  id : Nat
  taskID : Nat
  labelID : Nat
deriving Repr, DecidableEq

/-- The `models.TaskAssginee` (sic, the source's spelling). -/
structure TaskAssginee where
  id : Nat
  taskID : Nat
  userID : Nat
deriving Repr, DecidableEq

/-- The `models.TaskComment`. -/
structure TaskComment where
  id : Nat
  taskID : Nat
  comment : String
deriving Repr, DecidableEq

/-- The `models.TaskRelation` (directed edge `taskID → otherTaskID`). -/
structure TaskRelation where
  id : Nat
  taskID : Nat
  otherTaskID : Nat
  relationKind : String
deriving Repr, DecidableEq

/-- The `models.ProjectUser` (user right on a project). -/
structure ProjectUser where
  id : Nat
  projectID : Nat
  userID : Nat
  right : Nat
deriving Repr, DecidableEq

/-- The `models.TeamProject` (team right on a project). -/
structure TeamProject where
  id : Nat
  projectID : Nat
  teamID : Nat
  right : Nat
deriving Repr, DecidableEq

/-- The `models.LinkSharing` (`hash` is the share secret). -/
structure LinkSharing where
  id : Nat
  projectID : Nat
  hash : String
deriving Repr, DecidableEq

/-- The `models.UnsplashPhoto` (external-image attribution row, 1:1 with a file). -/
structure UnsplashPhoto where
  id : Nat
  fileID : Nat
  author : String
deriving Repr, DecidableEq

/-- Row in the `files` table. -/
structure FileRec where
  id : Nat
  name : String
  size : Nat
deriving Repr, DecidableEq

/-- The `models.ProjectDuplicate` (`project` is `ld.Project`, loaded by the `CanRead`
check before `Create` runs). -/
structure ProjectDuplicate where
  projectID : Nat
  namespaceID : Nat
  project : Project
deriving Repr, DecidableEq

/-- The read side of the session plus the collaborator oracles: source rows as the
queries return them, and the outcome of each fallible collaborator call, keyed by the
identifying value the Go code has in scope at the call site (`none` = the call
succeeds). -/
structure Env where
  tasks : List Task
  buckets : List Bucket
  attachments : List TaskAttachment
  labelTasks : List LabelTask
  assignees : List TaskAssginee
  comments : List TaskComment
  relations : List TaskRelation
  projectUsers : List ProjectUser
  teamProjects : List TeamProject
  linkShares : List LinkSharing
  /-- Outcome of the single `CreateProject` call. -/
  createProjectResult : Option DupError
  /-- Identifier `CreateProject` generates for the new project on success. -/
  generatedIdentifier : String
  /-- Outcome of `b.Create`, keyed by the old bucket id. -/
  createBucketErr : Nat → Option DupError
  /-- Outcome of `createTask`, keyed by the old task id. -/
  createTaskErr : Nat → Option DupError
  /-- Outcome of `LoadFileMetaByID`, keyed by the file id. -/
  loadFileMetaResult : Nat → Option DupError
  /-- Outcome of `LoadFileByID` (opens the file content), keyed by the file id. -/
  loadFileResult : Nat → Option DupError
  /-- Outcome of `attachment.NewAttachment`, keyed by the old attachment id. -/
  newAttachmentErr : Nat → Option DupError
  /-- Outcome of the background `files.Create` call. -/
  createFileErr : Option DupError
  /-- The `(Name, Size)` metadata of a stored file, keyed by the file id. -/
  fileMeta : Nat → String × Nat
  /-- Go pair result of `GetUnsplashPhotoByFileID`, keyed by the file id. -/
  getUnsplashPhoto : Nat → Option UnsplashPhoto × Option DupError
  /-- Outcome of `addNewAssigneeByID`, keyed by the assignee's user id. -/
  addAssigneeResult : Nat → Option DupError
  /-- The `utils.MakeRandomString`: requested length and call counter to the produced
  string. -/
  makeRandomString : Nat → Nat → String

/-- The write side of the session: rows created for the destination project, the
auto-increment counter, the open source-file handles (by file id, most recent first)
and the random-generator call counter. -/
structure DupState where
  nextId : Nat
  newProject : Option Project := none
  newBuckets : List Bucket := []
  newTasks : List Task := []
  newFiles : List FileRec := []
  newAttachments : List TaskAttachment := []
  newLabelTasks : List LabelTask := []
  newAssignees : List TaskAssginee := []
  newComments : List TaskComment := []
  newRelations : List TaskRelation := []
  newProjectUsers : List ProjectUser := []
  newTeamProjects : List TeamProject := []
  newLinkShares : List LinkSharing := []
  newUnsplashPhotos : List UnsplashPhoto := []
  openFiles : List Nat := []
  rngCounter : Nat := 0
deriving Repr, DecidableEq

/-- Session state before the duplication starts: auto-increment counter at `n0`,
nothing written, no open handles. -/
def initialState (n0 : Nat) : DupState := { nextId := n0 }

/-- Row identity assignment on insert: a cleared (zero) identity receives the
auto-increment value, a non-zero identity is kept. -/
def assignId (st : DupState) (given : Nat) : Nat × DupState :=
  if given == 0 then (st.nextId, { st with nextId := st.nextId + 1 }) else (given, st)

/-- Close a deferred file handle (used for the Go `defer f.File.Close()`). -/
def closeFile (deferred : Option Nat) (st : DupState) : DupState :=
  match deferred with
  | none => st
  | some fid => { st with openFiles := st.openFiles.erase fid }

/-- The `ProjectDuplicate.CanCreate` (project_duplicate.go lines 42–53): read check on the
source project; on a read error or a negative answer, return that outcome without
consulting the create check; otherwise set the target namespace on the project and
return the project-create check.  `canRead` is the `Project.CanRead` collaborator
(keyed by project id, returning `(canRead, maxRight, err)`); `canCreateProject` is the
`Project.CanCreate` collaborator (keyed by project id and namespace id). -/
def projectDuplicateCanCreate (ld : ProjectDuplicate)
    (canRead : Nat → Bool × Nat × Option DupError)
    (canCreateProject : Nat → Nat → Bool × Option DupError) : Bool × Option DupError :=
  let r := canRead ld.projectID
  if r.2.2.isSome || !r.1 then (r.1, r.2.2)
  else canCreateProject ld.projectID ld.namespaceID

/-- Modelled from the spec: `CreateProject` (models/project.go) is not part of the
excerpted source.  Per spec §4.2 the destination project record is created with a fresh
identity and a generated identifier; identifier generation may collide with an existing
unique identifier, in which case the collision error is reported while the project row
itself is still created with an empty identifier (the identifier being "a convenience,
not required for correctness" and the operation one that "still produces a created
destination project").  Any other error means no project row is created. -/
def createProject (env : Env) (p : Project) (st : DupState) :
    Project × DupState × Option DupError :=
  match env.createProjectResult with
  | some e =>
    if IsErrProjectIdentifierIsNotUnique e then
      let a := assignId st p.id
      let p1 := { p with id := a.1, identifier := "" }
      (p1, { a.2 with newProject := some p1 }, some e)
    else (p, st, some e)
  | none =>
    let a := assignId st p.id
    let p1 := { p with id := a.1, identifier := env.generatedIdentifier }
    (p1, { a.2 with newProject := some p1 }, none)

/-- The `Create` lines 75–86: clear the project identity and identifier, set the owner to
the doer, call `CreateProject`; an identifier-collision error is recovered by clearing
the identifier and continuing, any other error is returned. -/
def createProjectStep (env : Env) (doer : Nat) (ld : ProjectDuplicate) (st : DupState) :
    Project × DupState × Option DupError :=
  let p0 : Project := { ld.project with id := 0, identifier := "", ownerID := doer }
  match createProject env p0 st with
  | (p1, st1, some e) =>
    if IsErrProjectIdentifierIsNotUnique e then ({ p1 with identifier := "" }, st1, none)
    else (p1, st1, some e)
  | (p1, st1, none) => (p1, st1, none)

/-- The `Create` lines 99–107: the bucket loop.  For each source bucket: remember the old
id, clear the identity, point it at the destination project, create it (`b.Create` is
not in the excerpt; modelled from the spec as inserting the row, its error outcome
supplied by the oracle), and record old → new in the bucket map. -/
def dupBucketsLoop (env : Env) (npid : Nat) :
    List Bucket → IdMap → DupState → IdMap × DupState × Option DupError
  | [], m, st => (m, st, none)
  | b :: bs, m, st =>
    let oldID := b.id
    let b1 : Bucket := { b with id := 0, projectID := npid }
    match env.createBucketErr oldID with
    | some e => (m, st, some e)
    | none =>
      let a := assignId st b1.id
      dupBucketsLoop env npid bs ((oldID, a.1) :: m)
        { a.2 with newBuckets := a.2.newBuckets ++ [{ b1 with id := a.1 }] }

/-- The `duplicateTasks` lines 221–233: the task loop.  For each task: remember the old id,
clear the identity, point it at the destination project, remap the bucket through the
bucket map (Go zero value when unmapped), clear the calendar UID, create it
(`createTask` is not in the excerpt; modelled from the spec as inserting the row, its
error outcome supplied by the oracle keyed by the old id), record old → new in the task
map and the old id in the ordered list. -/
def dupTasksLoop (env : Env) (npid : Nat) (bucketMap : IdMap) :
    List Task → IdMap → List Nat → DupState → IdMap × List Nat × DupState × Option DupError
  | [], m, olds, st => (m, olds, st, none)
  | t :: ts, m, olds, st =>
    let oldID := t.id
    let t1 : Task := { t with
        id := 0, projectID := npid, bucketID := mapGetD bucketMap t.bucketID, uid := "" }
    match env.createTaskErr oldID with
    | some e => (m, olds, st, some e)
    | none =>
      let a := assignId st t1.id
      dupTasksLoop env npid bucketMap ts ((oldID, a.1) :: m) (olds ++ [oldID])
        { a.2 with newTasks := a.2.newTasks ++ [{ t1 with id := a.1 }] }

/-- The `duplicateTasks` lines 245–276: the attachment loop.  Clear the identity; remap the
task id through the task map, skipping the attachment when the old task id is unmapped;
load the file metadata, skipping the attachment on a file-does-not-exist error and
failing on any other error; load the file content (this opens the source file handle),
failing on error; `NewAttachment` duplicates the content as a new stored file and
inserts the attachment row pointing at it (modelled from the spec; its error outcome
supplied by the oracle keyed by the old attachment id) — on its error the code returns
without closing the just-opened source handle; on success the source handle is closed. -/
def dupAttachmentsLoop (env : Env) (tm : IdMap) :
    List TaskAttachment → DupState → DupState × Option DupError
  | [], st => (st, none)
  | a :: rest, st =>
    let oldAttachmentID := a.id
    match List.lookup a.taskID tm with
    | none => dupAttachmentsLoop env tm rest st
    | some newTaskID =>
      match env.loadFileMetaResult a.fileID with
      | some e =>
        if IsErrFileDoesNotExist e then dupAttachmentsLoop env tm rest st
        else (st, some e)
      | none =>
        match env.loadFileResult a.fileID with
        | some e => (st, some e)
        | none =>
          let st1 : DupState := { st with openFiles := a.fileID :: st.openFiles }
          match env.newAttachmentErr oldAttachmentID with
          | some e => (st1, some e)
          | none =>
            let meta := env.fileMeta a.fileID
            let af := assignId st1 0
            let st2 : DupState := { af.2 with newFiles := af.2.newFiles ++ [⟨af.1, meta.1, meta.2⟩] }
            let aa := assignId st2 0
            let st3 : DupState := { aa.2 with
              newAttachments := aa.2.newAttachments ++ [{ id := aa.1, taskID := newTaskID, fileID := af.1 }],
              openFiles := aa.2.openFiles.erase a.fileID }
            dupAttachmentsLoop env tm rest st3

/-- The `duplicateTasks` lines 287–293: the label-association loop — clear the identity,
remap the task id through the task map (Go zero value when unmapped, unchecked),
insert. -/
def dupLabelTasksLoop (tm : IdMap) : List LabelTask → DupState → DupState
  | [], st => st
  | lt :: rest, st =>
    let lt1 : LabelTask := { lt with id := 0, taskID := mapGetD tm lt.taskID }
    let a := assignId st lt1.id
    dupLabelTasksLoop tm rest
      { a.2 with newLabelTasks := a.2.newLabelTasks ++ [{ lt1 with id := a.1 }] }

/-- The `duplicateTasks` lines 304–315: the assignee loop.  Build a task handle with the
remapped task id and the destination project, then `addNewAssigneeByID` (not in the
excerpt; modelled from the spec as re-checking the user's access to the destination
project — oracle keyed by user id — and inserting the assignee row on success); a
user-does-not-have-access error skips the assignee, any other error is fatal. -/
def dupAssigneesLoop (env : Env) (tm : IdMap) (npid : Nat) :
    List TaskAssginee → DupState → DupState × Option DupError
  | [], st => (st, none)
  | a :: rest, st =>
    let newTaskID := mapGetD tm a.taskID
    match env.addAssigneeResult a.userID with
    | some e =>
      if IsErrUserDoesNotHaveAccessToProject e then dupAssigneesLoop env tm npid rest st
      else (st, some e)
    | none =>
      let ai := assignId st 0
      dupAssigneesLoop env tm npid rest
        { ai.2 with newAssignees := ai.2.newAssignees ++ [{ id := ai.1, taskID := newTaskID, userID := a.userID }] }

/-- The `duplicateTasks` lines 325–331: the comment loop — clear the identity, remap the
task id (unchecked), insert. -/
def dupCommentsLoop (tm : IdMap) : List TaskComment → DupState → DupState
  | [], st => st
  | c :: rest, st =>
    let c1 : TaskComment := { c with id := 0, taskID := mapGetD tm c.taskID }
    let a := assignId st c1.id
    dupCommentsLoop tm rest
      { a.2 with newComments := a.2.newComments ++ [{ c1 with id := a.1 }] }

/-- The `duplicateTasks` lines 343–354: the relation loop.  Look up the other endpoint in
the task map and skip the relation when it is absent; otherwise clear the identity,
rewrite both endpoints (the `taskID` side through the unchecked zero-default read) and
insert. -/
def dupRelationsLoop (tm : IdMap) : List TaskRelation → DupState → DupState
  | [], st => st
  | r :: rest, st =>
    match List.lookup r.otherTaskID tm with
    | none => dupRelationsLoop tm rest st
    | some newOther =>
      let r1 : TaskRelation := { r with id := 0, otherTaskID := newOther, taskID := mapGetD tm r.taskID }
      let a := assignId st r1.id
      dupRelationsLoop tm rest
        { a.2 with newRelations := a.2.newRelations ++ [{ r1 with id := a.1 }] }

/-- The `getTasksForProjects` (not in the excerpt; modelled from the spec: the full task
set of the source project, in listing order). -/
def getTasksForProjects (env : Env) (lpid : Nat) : List Task :=
  env.tasks.filter (fun t => t.projectID == lpid)

/-- The `getTaskAttachmentsByTaskIDs`: the attachments of the recorded old tasks. -/
def getTaskAttachmentsByTaskIDs (env : Env) (olds : List Nat) : List TaskAttachment :=
  env.attachments.filter (fun a => olds.contains a.taskID)

/-- The query restricted to the old task ids for label rows. -/
def labelTasksByTaskIDs (env : Env) (olds : List Nat) : List LabelTask :=
  env.labelTasks.filter (fun lt => olds.contains lt.taskID)

/-- The query restricted to the old task ids for assignee rows. -/
def assigneesByTaskIDs (env : Env) (olds : List Nat) : List TaskAssginee :=
  env.assignees.filter (fun a => olds.contains a.taskID)

/-- The query restricted to the old task ids for comment rows. -/
def commentsByTaskIDs (env : Env) (olds : List Nat) : List TaskComment :=
  env.comments.filter (fun c => olds.contains c.taskID)

/-- The query restricted to the old task ids for relation rows. -/
def relationsByTaskIDs (env : Env) (olds : List Nat) : List TaskRelation :=
  env.relations.filter (fun r => olds.contains r.taskID)

/-- The `duplicateTasks` (lines 205–359): list the source project's tasks; return
immediately when there are none; copy all tasks building the task map and the old-id
list; then attachments, label associations, assignees, comments and same-project
relations, each loaded by the recorded old task ids. -/
def duplicateTasks (env : Env) (lpid npid : Nat) (bucketMap : IdMap) (st : DupState) :
    DupState × Option DupError :=
  if (getTasksForProjects env lpid).length == 0 then (st, none)
  else
    match dupTasksLoop env npid bucketMap (getTasksForProjects env lpid) [] [] st with
    | (_, _, st1, some e) => (st1, some e)
    | (taskMap, oldTaskIDs, st1, none) =>
      match dupAttachmentsLoop env taskMap (getTaskAttachmentsByTaskIDs env oldTaskIDs) st1 with
      | (st2, some e) => (st2, some e)
      | (st2, none) =>
        match dupAssigneesLoop env taskMap npid (assigneesByTaskIDs env oldTaskIDs)
            (dupLabelTasksLoop taskMap (labelTasksByTaskIDs env oldTaskIDs) st2) with
        | (st4, some e) => (st4, some e)
        | (st4, none) =>
          (dupRelationsLoop taskMap (relationsByTaskIDs env oldTaskIDs)
            (dupCommentsLoop taskMap (commentsByTaskIDs env oldTaskIDs) st4), none)

/-- The `SetProjectBackground` (not in the excerpt; modelled from the spec as updating the
destination project row's background file reference and blur hash). -/
def setProjectBackgroundRow (projID nfid : Nat) (blur : String) (st : DupState) : DupState :=
  { st with
      newProject := st.newProject.map (fun p =>
        if p.id == projID then { p with backgroundFileID := nfid, backgroundBlurHash := blur } else p) }

/-- The `Create` lines 117–153: the background phase.  Skip when the project has no
background file.  Load the metadata and the content (fatal on error; the content load
opens the source handle, whose close is deferred to the end of `Create` — the returned
middle component is the deferred handle); `files.Create` duplicates the content as a
new stored file (fatal on error); `GetUnsplashPhotoByFileID` looks up the attribution
row — the source returns its error precisely when the error is the
file-is-not-unsplash-file class (the unchanged source condition
`err != nil && IsErrFileIsNotUnsplashFile(err)`); a returned photo is cloned pointing
at the new file; finally the destination background is set preserving the blur hash. -/
def dupBackground (env : Env) (proj : Project) (st : DupState) :
    DupState × Option Nat × Option DupError :=
  if proj.backgroundFileID == 0 then (st, none, none)
  else
    let fid := proj.backgroundFileID
    match env.loadFileMetaResult fid with
    | some e => (st, none, some e)
    | none =>
      match env.loadFileResult fid with
      | some e => (st, none, some e)
      | none =>
        let st1 : DupState := { st with openFiles := fid :: st.openFiles }
        match env.createFileErr with
        | some e => (st1, some fid, some e)
        | none =>
          let meta := env.fileMeta fid
          let af := assignId st1 0
          let st2 : DupState := { af.2 with newFiles := af.2.newFiles ++ [⟨af.1, meta.1, meta.2⟩] }
          let upRes := env.getUnsplashPhoto fid
          if upRes.2.isSome && IsErrFileIsNotUnsplashFile (upRes.2.getD (DupError.other 0)) then
            (st2, some fid, upRes.2)
          else
            match upRes.1 with
            | some u =>
              let au := assignId st2 0
              let st3 : DupState := { au.2 with
                newUnsplashPhotos := au.2.newUnsplashPhotos ++ [{ u with id := au.1, fileID := af.1 }] }
              (setProjectBackgroundRow proj.id af.1 proj.backgroundBlurHash st3, some fid, none)
            | none =>
              (setProjectBackgroundRow proj.id af.1 proj.backgroundBlurHash st2, some fid, none)

/-- The `Create` lines 157–168: the user-right loop — clear the identity, point at the
destination project, insert. -/
def dupProjectUsersLoop (npid : Nat) : List ProjectUser → DupState → DupState
  | [], st => st
  | u :: rest, st =>
    let u1 : ProjectUser := { u with id := 0, projectID := npid }
    let a := assignId st u1.id
    dupProjectUsersLoop npid rest
      { a.2 with newProjectUsers := a.2.newProjectUsers ++ [{ u1 with id := a.1 }] }

/-- The `Create` lines 172–183: the team-right loop — clear the identity, point at the
destination project, insert. -/
def dupTeamProjectsLoop (npid : Nat) : List TeamProject → DupState → DupState
  | [], st => st
  | t :: rest, st =>
    let t1 : TeamProject := { t with id := 0, projectID := npid }
    let a := assignId st t1.id
    dupTeamProjectsLoop npid rest
      { a.2 with newTeamProjects := a.2.newTeamProjects ++ [{ t1 with id := a.1 }] }

/-- The `Create` lines 186–198: the link-share loop — clear the identity, point at the
destination project, regenerate the secret with `utils.MakeRandomString(40)` (modelled
from the spec as the env's generator stream, advanced once per call), insert. -/
def dupLinkSharesLoop (env : Env) (npid : Nat) : List LinkSharing → DupState → DupState
  | [], st => st
  | sh :: rest, st =>
    let sh1 : LinkSharing := { sh with
        id := 0, projectID := npid, hash := env.makeRandomString 40 st.rngCounter }
    let st0 : DupState := { st with rngCounter := st.rngCounter + 1 }
    let a := assignId st0 sh1.id
    dupLinkSharesLoop env npid rest
      { a.2 with newLinkShares := a.2.newLinkShares ++ [{ sh1 with id := a.1 }] }

/-- The `project_id = ?` query for buckets. -/
def bucketsByProject (env : Env) (lpid : Nat) : List Bucket :=
  env.buckets.filter (fun b => b.projectID == lpid)

/-- The `project_id = ?` query for user rights. -/
def projectUsersByProject (env : Env) (lpid : Nat) : List ProjectUser :=
  env.projectUsers.filter (fun u => u.projectID == lpid)

/-- The `project_id = ?` query for team rights. -/
def teamProjectsByProject (env : Env) (lpid : Nat) : List TeamProject :=
  env.teamProjects.filter (fun t => t.projectID == lpid)

/-- The `project_id = ?` query for link shares. -/
def linkSharesByProject (env : Env) (lpid : Nat) : List LinkSharing :=
  env.linkShares.filter (fun s => s.projectID == lpid)

/-- The part of `Create` after the project record exists (lines 90–202): buckets, task
graph, background (with the deferred close of the background handle applied at every
return of `Create` from its registration on), user rights, team rights, link shares. -/
def createRest (env : Env) (lpid : Nat) (proj : Project) (st : DupState) :
    DupState × Option DupError :=
  match dupBucketsLoop env proj.id (bucketsByProject env lpid) [] st with
  | (_, st1, some e) => (st1, some e)
  | (bucketMap, st1, none) =>
    match duplicateTasks env lpid proj.id bucketMap st1 with
    | (st2, some e) => (st2, some e)
    | (st2, none) =>
      match dupBackground env proj st2 with
      | (st3, deferred, some e) => (closeFile deferred st3, some e)
      | (st3, deferred, none) =>
        (closeFile deferred
          (dupLinkSharesLoop env proj.id (linkSharesByProject env lpid)
            (dupTeamProjectsLoop proj.id (teamProjectsByProject env lpid)
              (dupProjectUsersLoop proj.id (projectUsersByProject env lpid) st3))), none)

/-- The `ProjectDuplicate.Create` (lines 71–203): create the destination project record
(recovering locally from an identifier collision), then everything else. -/
def projectDuplicateCreate (env : Env) (doer : Nat) (ld : ProjectDuplicate)
    (st : DupState) : DupState × Option DupError :=
  match createProjectStep env doer ld st with
  | (_, st1, some e) => (st1, some e)
  | (proj, st1, none) => createRest env ld.projectID proj st1

/-! ## Pure descriptions of each copy loop's output

For each loop, a pure function giving the rows it appends when the auto-increment
counter starts at `n`; the characterization lemmas below prove the loops equal to
them.  These are proof infrastructure, not a second reading of the source. -/

/-- Rows appended by the bucket loop, counter starting at `n`. -/
def bucketsOutSpec (npid n : Nat) : List Bucket → List Bucket
  | [] => []
  | b :: bs => { b with id := n, projectID := npid } :: bucketsOutSpec npid (n + 1) bs

/-- The bucket map produced by the bucket loop on top of accumulator `m`. -/
def bucketMapSpecFrom (n : Nat) : List Bucket → IdMap → IdMap
  | [], m => m
  | b :: bs, m => bucketMapSpecFrom (n + 1) bs ((b.id, n) :: m)

/-- Rows appended by the task loop, counter starting at `n`. -/
def tasksOutSpec (npid : Nat) (bm : IdMap) (n : Nat) : List Task → List Task
  | [] => []
  | t :: ts =>
    { t with id := n, projectID := npid, bucketID := mapGetD bm t.bucketID, uid := "" }
      :: tasksOutSpec npid bm (n + 1) ts

/-- The task map produced by the task loop on top of accumulator `m`. -/
def taskMapSpecFrom (n : Nat) : List Task → IdMap → IdMap
  | [], m => m
  | t :: ts, m => taskMapSpecFrom (n + 1) ts ((t.id, n) :: m)

/-- Rows appended by the label-association loop. -/
def labelTasksOutSpec (tm : IdMap) (n : Nat) : List LabelTask → List LabelTask
  | [] => []
  | lt :: rest =>
    { lt with id := n, taskID := mapGetD tm lt.taskID } :: labelTasksOutSpec tm (n + 1) rest

/-- Rows appended by the comment loop. -/
def commentsOutSpec (tm : IdMap) (n : Nat) : List TaskComment → List TaskComment
  | [] => []
  | c :: rest =>
    { c with id := n, taskID := mapGetD tm c.taskID } :: commentsOutSpec tm (n + 1) rest

/-- Rows appended by the relation loop (relations whose other endpoint is unmapped are
dropped). -/
def relationsOutSpec (tm : IdMap) (n : Nat) : List TaskRelation → List TaskRelation
  | [] => []
  | r :: rest =>
    match List.lookup r.otherTaskID tm with
    | none => relationsOutSpec tm n rest
    | some newOther =>
      { r with id := n, taskID := mapGetD tm r.taskID, otherTaskID := newOther }
        :: relationsOutSpec tm (n + 1) rest

/-- Number of relations the relation loop keeps. -/
def keptRelationCount (tm : IdMap) (l : List TaskRelation) : Nat :=
  (l.filter (fun r => mapHas tm r.otherTaskID)).length

/-- Rows appended by the user-right loop. -/
def projectUsersOutSpec (npid n : Nat) : List ProjectUser → List ProjectUser
  | [] => []
  | u :: rest => { u with id := n, projectID := npid } :: projectUsersOutSpec npid (n + 1) rest

/-- Rows appended by the team-right loop. -/
def teamProjectsOutSpec (npid n : Nat) : List TeamProject → List TeamProject
  | [] => []
  | t :: rest => { t with id := n, projectID := npid } :: teamProjectsOutSpec npid (n + 1) rest

/-- Rows appended by the link-share loop, counter at `n`, generator counter at `rc`. -/
def linkSharesOutSpec (env : Env) (npid n rc : Nat) : List LinkSharing → List LinkSharing
  | [] => []
  | sh :: rest =>
    { sh with id := n, projectID := npid, hash := env.makeRandomString 40 rc }
      :: linkSharesOutSpec env npid (n + 1) (rc + 1) rest

/-- The attachment loop skips this attachment: its old task id is unmapped, or the file
metadata load reports a file-does-not-exist error. -/
def attachmentSkippedB (env : Env) (tm : IdMap) (a : TaskAttachment) : Bool :=
  !(mapHas tm a.taskID) ||
    (match env.loadFileMetaResult a.fileID with
     | some e => IsErrFileDoesNotExist e
     | none => false)

/-- The fatal error (if any) the attachment loop hits on this attachment: a metadata
load error other than file-does-not-exist, a content load error, or an attachment
creation error. -/
def attachmentFatalErr (env : Env) (tm : IdMap) (a : TaskAttachment) : Option DupError :=
  if !(mapHas tm a.taskID) then none
  else
    match env.loadFileMetaResult a.fileID with
    | some e => if IsErrFileDoesNotExist e then none else some e
    | none =>
      match env.loadFileResult a.fileID with
      | some e => some e
      | none => env.newAttachmentErr a.id

/-- Attachment rows appended by the attachment loop (two identities are consumed per
copied attachment: the new stored file's, then the new attachment row's). -/
def attachmentsOutSpec (env : Env) (tm : IdMap) (n : Nat) :
    List TaskAttachment → List TaskAttachment
  | [] => []
  | a :: rest =>
    if attachmentSkippedB env tm a then attachmentsOutSpec env tm n rest
    else { id := n + 1, taskID := mapGetD tm a.taskID, fileID := n }
      :: attachmentsOutSpec env tm (n + 2) rest

/-- File rows appended by the attachment loop. -/
def attachFilesOutSpec (env : Env) (tm : IdMap) (n : Nat) : List TaskAttachment → List FileRec
  | [] => []
  | a :: rest =>
    if attachmentSkippedB env tm a then attachFilesOutSpec env tm n rest
    else ⟨n, (env.fileMeta a.fileID).1, (env.fileMeta a.fileID).2⟩
      :: attachFilesOutSpec env tm (n + 2) rest

/-- Number of attachments the attachment loop copies. -/
def copiedAttachmentCount (env : Env) (tm : IdMap) (l : List TaskAttachment) : Nat :=
  (l.filter (fun a => !attachmentSkippedB env tm a)).length

/-- The fatal error (if any) the assignee loop hits on this assignee: any add error
other than the user-does-not-have-access class. -/
def assigneeFatalErr (env : Env) (a : TaskAssginee) : Option DupError :=
  match env.addAssigneeResult a.userID with
  | some e => if IsErrUserDoesNotHaveAccessToProject e then none else some e
  | none => none

/-- Assignee rows appended by the assignee loop (rows whose user's access re-check
fails are skipped; under a fatal-free run the `some` branch is exactly the skip). -/
def assigneesOutSpec (env : Env) (tm : IdMap) (n : Nat) : List TaskAssginee → List TaskAssginee
  | [] => []
  | a :: rest =>
    match env.addAssigneeResult a.userID with
    | some _ => assigneesOutSpec env tm n rest
    | none =>
      { id := n, taskID := mapGetD tm a.taskID, userID := a.userID }
        :: assigneesOutSpec env tm (n + 1) rest

/-- Number of assignees the assignee loop actually adds. -/
def acceptedAssigneeCount (env : Env) (l : List TaskAssginee) : Nat :=
  (l.filter (fun a => (env.addAssigneeResult a.userID).isNone)).length

/-- All primary identities of the rows written for the destination project (the claim
C8's table list: project, bucket, task, attachment, label-association, comment,
relation, user right, team right, link share, external-image attribution). -/
def destinationIds (st : DupState) : List Nat :=
  (match st.newProject with | some p => [p.id] | none => []) ++
  st.newBuckets.map (fun x => x.id) ++ st.newTasks.map (fun x => x.id) ++
  st.newAttachments.map (fun x => x.id) ++ st.newLabelTasks.map (fun x => x.id) ++
  st.newComments.map (fun x => x.id) ++ st.newRelations.map (fun x => x.id) ++
  st.newProjectUsers.map (fun x => x.id) ++ st.newTeamProjects.map (fun x => x.id) ++
  st.newLinkShares.map (fun x => x.id) ++ st.newUnsplashPhotos.map (fun x => x.id)

/-- All primary identities of the source rows (the source project row and every row of
the queried tables). -/
def sourceIds (env : Env) (ld : ProjectDuplicate) : List Nat :=
  ld.project.id ::
    (env.buckets.map (fun x => x.id) ++ env.tasks.map (fun x => x.id) ++
     env.attachments.map (fun x => x.id) ++ env.labelTasks.map (fun x => x.id) ++
     env.comments.map (fun x => x.id) ++ env.relations.map (fun x => x.id) ++
     env.projectUsers.map (fun x => x.id) ++ env.teamProjects.map (fun x => x.id) ++
     env.linkShares.map (fun x => x.id))

/-- Well-formed session: every existing (source) primary identity, including that of
any external-image attribution row the oracle can return, is below the auto-increment
counter. -/
def envIdsBelow (env : Env) (ld : ProjectDuplicate) (n0 : Nat) : Prop :=
  (∀ j ∈ sourceIds env ld, j < n0) ∧
  (∀ fid u, (env.getUnsplashPhoto fid).1 = some u → u.id < n0)

/-! ## Concrete fixtures used by the witness instances -/

/-- A concrete source project (it has a background file, id 5). -/
def sampleProject : Project :=
  { id := 1, title := "P", identifier := "PRJ", ownerID := 3, namespaceID := 9,
    backgroundFileID := 5, backgroundBlurHash := "blur" }

/-- A concrete duplication request: project 1 into namespace 2. -/
def sampleLd : ProjectDuplicate :=
  { projectID := 1, namespaceID := 2, project := sampleProject }

/-- A concrete environment: project 1 has two buckets (21, 22), three tasks (11 in 21,
12 in 22, 13 in the stale bucket 99), attachments 31 (loads fine), 32 (its file 42
does not exist) and 33 (its task 77 is outside the project), a label row on task 11
and one on the foreign task 77, two assignees (user 56 lacks destination access), one
comment, an in-project relation 11 → 12 and a cross-project relation 11 → 77, one
user right, one team right and two link shares.  Rows of project 4 are noise that the
queries must filter out.  All collaborator calls succeed. -/
def sampleEnv : Env :=
  { tasks := [{ id := 11, projectID := 1, bucketID := 21, uid := "u1", title := "t1" },
              { id := 12, projectID := 1, bucketID := 22, uid := "u2", title := "t2" },
              { id := 13, projectID := 1, bucketID := 99, uid := "", title := "t3" },
              { id := 14, projectID := 4, bucketID := 21, uid := "x", title := "t4" }],
    buckets := [{ id := 21, projectID := 1, title := "b1" },
                { id := 22, projectID := 1, title := "b2" },
                { id := 23, projectID := 4, title := "b3" }],
    attachments := [{ id := 31, taskID := 11, fileID := 41 },
                    { id := 32, taskID := 12, fileID := 42 },
                    { id := 33, taskID := 77, fileID := 43 }],
    labelTasks := [{ id := 61, taskID := 11, labelID := 91 },
                   { id := 62, taskID := 77, labelID := 92 }],
    assignees := [{ id := 71, taskID := 11, userID := 55 },
                  { id := 72, taskID := 12, userID := 56 }],
    comments := [{ id := 81, taskID := 12, comment := "c" }],
    relations := [{ id := 51, taskID := 11, otherTaskID := 12, relationKind := "blocks" },
                  { id := 52, taskID := 11, otherTaskID := 77, relationKind := "related" }],
    projectUsers := [{ id := 45, projectID := 1, userID := 55, right := 1 }],
    teamProjects := [{ id := 46, projectID := 1, teamID := 66, right := 2 }],
    linkShares := [{ id := 47, projectID := 1, hash := "oldsecret1" },
                   { id := 48, projectID := 1, hash := "oldsecret2" }],
    createProjectResult := none,
    generatedIdentifier := "PRJ2",
    createBucketErr := fun _ => none,
    createTaskErr := fun _ => none,
    loadFileMetaResult := fun fid => if fid == 42 then some DupError.fileDoesNotExist else none,
    loadFileResult := fun _ => none,
    newAttachmentErr := fun _ => none,
    createFileErr := none,
    fileMeta := fun fid => ("f", fid),
    getUnsplashPhoto := fun _ => (none, none),
    addAssigneeResult := fun uid => if uid == 56 then some DupError.userNoAccess else none,
    makeRandomString := fun n _ => String.mk (List.replicate n 'a') }

/-! ## Characterization of the loops -/

theorem dupLabelTasksLoop_eq (tm : IdMap) :
    ∀ (l : List LabelTask) (st : DupState),
    dupLabelTasksLoop tm l st =
      { st with newLabelTasks := st.newLabelTasks ++ labelTasksOutSpec tm st.nextId l,
                nextId := st.nextId + l.length }
  | [], st => by simp [dupLabelTasksLoop, labelTasksOutSpec]
  | lt :: rest, st => by
    rw [dupLabelTasksLoop, dupLabelTasksLoop_eq tm rest]
    simp [labelTasksOutSpec, assignId, List.append_assoc, Nat.add_comm, Nat.add_assoc,
      Nat.add_left_comm]

theorem dupCommentsLoop_eq (tm : IdMap) :
    ∀ (l : List TaskComment) (st : DupState),
    dupCommentsLoop tm l st =
      { st with newComments := st.newComments ++ commentsOutSpec tm st.nextId l,
                nextId := st.nextId + l.length }
  | [], st => by simp [dupCommentsLoop, commentsOutSpec]
  | c :: rest, st => by
    rw [dupCommentsLoop, dupCommentsLoop_eq tm rest]
    simp [commentsOutSpec, assignId, List.append_assoc, Nat.add_comm, Nat.add_assoc,
      Nat.add_left_comm]

theorem dupProjectUsersLoop_eq (npid : Nat) :
    ∀ (l : List ProjectUser) (st : DupState),
    dupProjectUsersLoop npid l st =
      { st with newProjectUsers := st.newProjectUsers ++ projectUsersOutSpec npid st.nextId l,
                nextId := st.nextId + l.length }
  | [], st => by simp [dupProjectUsersLoop, projectUsersOutSpec]
  | u :: rest, st => by
    rw [dupProjectUsersLoop, dupProjectUsersLoop_eq npid rest]
    simp [projectUsersOutSpec, assignId, List.append_assoc, Nat.add_comm, Nat.add_assoc,
      Nat.add_left_comm]

theorem dupTeamProjectsLoop_eq (npid : Nat) :
    ∀ (l : List TeamProject) (st : DupState),
    dupTeamProjectsLoop npid l st =
      { st with newTeamProjects := st.newTeamProjects ++ teamProjectsOutSpec npid st.nextId l,
                nextId := st.nextId + l.length }
  | [], st => by simp [dupTeamProjectsLoop, teamProjectsOutSpec]
  | t :: rest, st => by
    rw [dupTeamProjectsLoop, dupTeamProjectsLoop_eq npid rest]
    simp [teamProjectsOutSpec, assignId, List.append_assoc, Nat.add_comm, Nat.add_assoc,
      Nat.add_left_comm]

theorem dupLinkSharesLoop_eq (env : Env) (npid : Nat) :
    ∀ (l : List LinkSharing) (st : DupState),
    dupLinkSharesLoop env npid l st =
      { st with newLinkShares := st.newLinkShares ++ linkSharesOutSpec env npid st.nextId st.rngCounter l,
                nextId := st.nextId + l.length,
                rngCounter := st.rngCounter + l.length }
  | [], st => by simp [dupLinkSharesLoop, linkSharesOutSpec]
  | sh :: rest, st => by
    rw [dupLinkSharesLoop, dupLinkSharesLoop_eq env npid rest]
    simp [linkSharesOutSpec, assignId, List.append_assoc, Nat.add_comm, Nat.add_assoc,
      Nat.add_left_comm]

theorem dupRelationsLoop_eq (tm : IdMap) :
    ∀ (l : List TaskRelation) (st : DupState),
    dupRelationsLoop tm l st =
      { st with newRelations := st.newRelations ++ relationsOutSpec tm st.nextId l,
                nextId := st.nextId + keptRelationCount tm l }
  | [], st => by simp [dupRelationsLoop, relationsOutSpec, keptRelationCount]
  | r :: rest, st => by
    cases h : List.lookup r.otherTaskID tm with
    | none =>
      rw [dupRelationsLoop]
      simp only [h]
      rw [dupRelationsLoop_eq tm rest]
      simp [relationsOutSpec, keptRelationCount, mapHas, h]
    | some newOther =>
      rw [dupRelationsLoop]
      simp only [h]
      rw [dupRelationsLoop_eq tm rest]
      simp [relationsOutSpec, keptRelationCount, mapHas, h, assignId, List.append_assoc,
        Nat.add_comm, Nat.add_assoc, Nat.add_left_comm]

theorem dupBucketsLoop_ok (env : Env) (npid : Nat) :
    ∀ (bs : List Bucket) (m : IdMap) (st : DupState) {m' : IdMap} {st' : DupState},
    dupBucketsLoop env npid bs m st = (m', st', none) →
    m' = bucketMapSpecFrom st.nextId bs m ∧
    st' = { st with newBuckets := st.newBuckets ++ bucketsOutSpec npid st.nextId bs,
                    nextId := st.nextId + bs.length }
  | [], m, st, m', st', h => by
    simp only [dupBucketsLoop, Prod.mk.injEq, and_true] at h
    obtain ⟨rfl, rfl⟩ := h
    simp [bucketMapSpecFrom, bucketsOutSpec]
  | b :: bs, m, st, m', st', h => by
    cases hc : env.createBucketErr b.id with
    | some e => simp [dupBucketsLoop, hc] at h
    | none =>
      simp [dupBucketsLoop, hc, assignId] at h
      obtain ⟨h1, h2⟩ := dupBucketsLoop_ok env npid bs _ _ h
      refine ⟨by rw [h1]; rfl, ?_⟩
      rw [h2]
      simp [bucketsOutSpec, List.append_assoc, Nat.add_comm, Nat.add_assoc,
        Nat.add_left_comm]

theorem dupTasksLoop_ok (env : Env) (npid : Nat) (bm : IdMap) :
    ∀ (ts : List Task) (m : IdMap) (olds : List Nat) (st : DupState)
      {m' : IdMap} {olds' : List Nat} {st' : DupState},
    dupTasksLoop env npid bm ts m olds st = (m', olds', st', none) →
    m' = taskMapSpecFrom st.nextId ts m ∧
    olds' = olds ++ ts.map (fun t => t.id) ∧
    st' = { st with newTasks := st.newTasks ++ tasksOutSpec npid bm st.nextId ts,
                    nextId := st.nextId + ts.length }
  | [], m, olds, st, m', olds', st', h => by
    simp only [dupTasksLoop, Prod.mk.injEq, and_true] at h
    obtain ⟨rfl, rfl, rfl⟩ := h
    simp [taskMapSpecFrom, tasksOutSpec]
  | t :: ts, m, olds, st, m', olds', st', h => by
    cases hc : env.createTaskErr t.id with
    | some e => simp [dupTasksLoop, hc] at h
    | none =>
      simp [dupTasksLoop, hc, assignId] at h
      obtain ⟨h1, h2, h3⟩ := dupTasksLoop_ok env npid bm ts _ _ _ h
      refine ⟨by rw [h1]; rfl, by rw [h2]; simp, ?_⟩
      rw [h3]
      simp [tasksOutSpec, List.append_assoc, Nat.add_comm, Nat.add_assoc,
        Nat.add_left_comm]

theorem dupAssigneesLoop_ok (env : Env) (tm : IdMap) (npid : Nat) :
    ∀ (l : List TaskAssginee) (st : DupState) {st' : DupState},
    dupAssigneesLoop env tm npid l st = (st', none) →
    st' = { st with newAssignees := st.newAssignees ++ assigneesOutSpec env tm st.nextId l,
                    nextId := st.nextId + acceptedAssigneeCount env l }
  | [], st, st', h => by
    simp only [dupAssigneesLoop, Prod.mk.injEq, and_true] at h
    rw [← h]
    simp [assigneesOutSpec, acceptedAssigneeCount]
  | a :: rest, st, st', h => by
    cases hc : env.addAssigneeResult a.userID with
    | some e =>
      cases he : IsErrUserDoesNotHaveAccessToProject e with
      | false => simp [dupAssigneesLoop, hc, he] at h
      | true =>
        simp only [dupAssigneesLoop] at h
        rw [hc] at h
        simp only [he, if_true] at h
        rw [dupAssigneesLoop_ok env tm npid rest st h]
        simp [assigneesOutSpec, acceptedAssigneeCount, hc]
    | none =>
      simp [dupAssigneesLoop, hc, assignId] at h
      rw [dupAssigneesLoop_ok env tm npid rest _ h]
      simp [assigneesOutSpec, acceptedAssigneeCount, hc, List.append_assoc, Nat.add_comm,
        Nat.add_assoc, Nat.add_left_comm]

theorem dupAttachmentsLoop_ok (env : Env) (tm : IdMap) :
    ∀ (l : List TaskAttachment) (st : DupState) {st' : DupState},
    dupAttachmentsLoop env tm l st = (st', none) →
    st' = { st with newFiles := st.newFiles ++ attachFilesOutSpec env tm st.nextId l,
                    newAttachments := st.newAttachments ++ attachmentsOutSpec env tm st.nextId l,
                    nextId := st.nextId + 2 * copiedAttachmentCount env tm l }
  | [], st, st', h => by
    simp only [dupAttachmentsLoop, Prod.mk.injEq, and_true] at h
    rw [← h]
    simp [attachFilesOutSpec, attachmentsOutSpec, copiedAttachmentCount]
  | a :: rest, st, st', h => by
    cases hL : List.lookup a.taskID tm with
    | none =>
      simp only [dupAttachmentsLoop] at h
      rw [hL] at h
      have hsk : attachmentSkippedB env tm a = true := by
        simp [attachmentSkippedB, mapHas, hL]
      rw [dupAttachmentsLoop_ok env tm rest st h]
      simp [attachFilesOutSpec, attachmentsOutSpec, copiedAttachmentCount, hsk]
    | some newTaskID =>
      cases hm : env.loadFileMetaResult a.fileID with
      | some e =>
        cases hne : IsErrFileDoesNotExist e with
        | false => simp [dupAttachmentsLoop, hL, hm, hne] at h
        | true =>
          simp only [dupAttachmentsLoop] at h
          rw [hL, hm] at h
          simp only [hne, if_true] at h
          have hsk : attachmentSkippedB env tm a = true := by
            simp [attachmentSkippedB, mapHas, hL, hm, hne]
          rw [dupAttachmentsLoop_ok env tm rest st h]
          simp [attachFilesOutSpec, attachmentsOutSpec, copiedAttachmentCount, hsk]
      | none =>
        cases hload : env.loadFileResult a.fileID with
        | some e => simp [dupAttachmentsLoop, hL, hm, hload] at h
        | none =>
          cases hna : env.newAttachmentErr a.id with
          | some e => simp [dupAttachmentsLoop, hL, hm, hload, hna] at h
          | none =>
            simp [dupAttachmentsLoop, hL, hm, hload, hna, assignId,
              List.erase_cons_head] at h
            have hsk : attachmentSkippedB env tm a = false := by
              simp [attachmentSkippedB, mapHas, hL, hm]
            have hget : mapGetD tm a.taskID = newTaskID := by simp [mapGetD, hL]
            rw [dupAttachmentsLoop_ok env tm rest _ h]
            simp [attachFilesOutSpec, attachmentsOutSpec, copiedAttachmentCount, hsk, hget,
              List.append_assoc, Nat.add_comm, Nat.add_assoc, Nat.add_left_comm,
              Nat.mul_add]

/-! ## Success decomposition of the composite steps -/

theorem duplicateTasks_ok (env : Env) (lpid npid : Nat) (bm : IdMap) (st : DupState)
    {st' : DupState} (h : duplicateTasks env lpid npid bm st = (st', none)) :
    (getTasksForProjects env lpid = [] ∧ st' = st) ∨
    (∃ stT stA stAs,
      dupTasksLoop env npid bm (getTasksForProjects env lpid) [] [] st =
        (taskMapSpecFrom st.nextId (getTasksForProjects env lpid) [],
         (getTasksForProjects env lpid).map (fun t => t.id), stT, none) ∧
      dupAttachmentsLoop env (taskMapSpecFrom st.nextId (getTasksForProjects env lpid) [])
        (getTaskAttachmentsByTaskIDs env ((getTasksForProjects env lpid).map (fun t => t.id)))
        stT = (stA, none) ∧
      dupAssigneesLoop env (taskMapSpecFrom st.nextId (getTasksForProjects env lpid) []) npid
        (assigneesByTaskIDs env ((getTasksForProjects env lpid).map (fun t => t.id)))
        (dupLabelTasksLoop (taskMapSpecFrom st.nextId (getTasksForProjects env lpid) [])
          (labelTasksByTaskIDs env ((getTasksForProjects env lpid).map (fun t => t.id))) stA) =
        (stAs, none) ∧
      st' = dupRelationsLoop (taskMapSpecFrom st.nextId (getTasksForProjects env lpid) [])
              (relationsByTaskIDs env ((getTasksForProjects env lpid).map (fun t => t.id)))
              (dupCommentsLoop (taskMapSpecFrom st.nextId (getTasksForProjects env lpid) [])
                (commentsByTaskIDs env ((getTasksForProjects env lpid).map (fun t => t.id)))
                stAs)) := by
  rw [duplicateTasks] at h
  cases hlen : (getTasksForProjects env lpid).length == 0 with
  | true =>
    rw [hlen] at h
    simp at h
    exact Or.inl ⟨List.length_eq_zero.mp (by simpa using hlen), h.symm⟩
  | false =>
    rw [hlen] at h
    simp only [Bool.false_eq_true, if_false] at h
    right
    rcases hT : dupTasksLoop env npid bm (getTasksForProjects env lpid) [] [] st with
      ⟨tm, olds, stT, eT⟩
    rw [hT] at h
    cases eT with
    | some err => simp at h
    | none =>
      obtain ⟨h1, h2, -⟩ := dupTasksLoop_ok env npid bm _ _ _ _ hT
      rw [List.nil_append] at h2
      subst h1; subst h2
      dsimp only at h
      refine ⟨stT, ?_⟩
      rcases hA : dupAttachmentsLoop env
          (taskMapSpecFrom st.nextId (getTasksForProjects env lpid) [])
          (getTaskAttachmentsByTaskIDs env
            ((getTasksForProjects env lpid).map (fun t => t.id))) stT with ⟨stA, eA⟩
      rw [hA] at h
      cases eA with
      | some err => simp at h
      | none =>
        dsimp only at h
        refine ⟨stA, ?_⟩
        rcases hAs : dupAssigneesLoop env
            (taskMapSpecFrom st.nextId (getTasksForProjects env lpid) []) npid
            (assigneesByTaskIDs env ((getTasksForProjects env lpid).map (fun t => t.id)))
            (dupLabelTasksLoop (taskMapSpecFrom st.nextId (getTasksForProjects env lpid) [])
              (labelTasksByTaskIDs env ((getTasksForProjects env lpid).map (fun t => t.id)))
              stA) with ⟨stAs, eAs⟩
        rw [hAs] at h
        cases eAs with
        | some err => simp at h
        | none =>
          dsimp only at h
          refine ⟨stAs, rfl, hA, hAs, ?_⟩
          simp only [Prod.mk.injEq, and_true] at h
          exact h.symm

theorem projectDuplicateCreate_ok (env : Env) (doer : Nat) (ld : ProjectDuplicate)
    (st : DupState) {st' : DupState}
    (h : projectDuplicateCreate env doer ld st = (st', none)) :
    ∃ proj st1 st2 st3 st4 deferred,
      createProjectStep env doer ld st = (proj, st1, none) ∧
      dupBucketsLoop env proj.id (bucketsByProject env ld.projectID) [] st1 =
        (bucketMapSpecFrom st1.nextId (bucketsByProject env ld.projectID) [], st2, none) ∧
      duplicateTasks env ld.projectID proj.id
        (bucketMapSpecFrom st1.nextId (bucketsByProject env ld.projectID) []) st2 =
        (st3, none) ∧
      dupBackground env proj st3 = (st4, deferred, none) ∧
      st' = closeFile deferred
              (dupLinkSharesLoop env proj.id (linkSharesByProject env ld.projectID)
                (dupTeamProjectsLoop proj.id (teamProjectsByProject env ld.projectID)
                  (dupProjectUsersLoop proj.id (projectUsersByProject env ld.projectID)
                    st4))) := by
  rw [projectDuplicateCreate] at h
  rcases hP : createProjectStep env doer ld st with ⟨proj, st1, eP⟩
  rw [hP] at h
  cases eP with
  | some err => simp at h
  | none =>
    dsimp only at h
    refine ⟨proj, st1, ?_⟩
    unfold createRest at h
    rcases hB : dupBucketsLoop env proj.id (bucketsByProject env ld.projectID) [] st1 with
      ⟨bm, st2, eB⟩
    rw [hB] at h
    cases eB with
    | some err => simp at h
    | none =>
      obtain ⟨hbm, -⟩ := dupBucketsLoop_ok env proj.id _ _ _ hB
      subst hbm
      dsimp only at h
      refine ⟨st2, ?_⟩
      rcases hD : duplicateTasks env ld.projectID proj.id
          (bucketMapSpecFrom st1.nextId (bucketsByProject env ld.projectID) []) st2 with
        ⟨st3, eD⟩
      rw [hD] at h
      cases eD with
      | some err => simp at h
      | none =>
        dsimp only at h
        refine ⟨st3, ?_⟩
        rcases hBg : dupBackground env proj st3 with ⟨st4, deferred, eBg⟩
        rw [hBg] at h
        cases eBg with
        | some err => simp at h
        | none =>
          dsimp only at h
          refine ⟨st4, deferred, rfl, rfl, rfl, rfl, ?_⟩
          simp only [Prod.mk.injEq, and_true] at h
          exact h.symm

/-! ## Facts about the out-spec functions -/

theorem tasksOutSpec_length (npid : Nat) (bm : IdMap) :
    ∀ (n : Nat) (ts : List Task), (tasksOutSpec npid bm n ts).length = ts.length
  | _, [] => rfl
  | n, t :: ts => by simp [tasksOutSpec, tasksOutSpec_length npid bm (n + 1) ts]

theorem tasksOutSpec_forall₂ (npid : Nat) (bm : IdMap) :
    ∀ (n : Nat) (ts : List Task),
    List.Forall₂
      (fun t t2 => t2.projectID = npid ∧ t2.bucketID = mapGetD bm t.bucketID ∧ t2.uid = "")
      ts (tasksOutSpec npid bm n ts)
  | _, [] => List.Forall₂.nil
  | n, t :: ts =>
    List.Forall₂.cons (by simp [tasksOutSpec]) (tasksOutSpec_forall₂ npid bm (n + 1) ts)

theorem tasksOutSpec_mem_id (npid : Nat) (bm : IdMap) :
    ∀ (n : Nat) (ts : List Task) (j : Nat), n ≤ j → j < n + ts.length →
    ∃ t2, t2 ∈ tasksOutSpec npid bm n ts ∧ t2.id = j
  | n, [], j, h1, h2 => by simp at h2; omega
  | n, t :: ts, j, h1, h2 => by
    by_cases hj : j = n
    · exact ⟨_, List.mem_cons_self _ _, by simp [tasksOutSpec, hj]⟩
    · obtain ⟨t2, ht2, hid⟩ :=
        tasksOutSpec_mem_id npid bm (n + 1) ts j (by omega) (by simp at h2; omega)
      exact ⟨t2, by simp only [tasksOutSpec]; exact List.mem_cons_of_mem _ ht2, hid⟩

theorem tasksOutSpec_id_ge (npid : Nat) (bm : IdMap) :
    ∀ (n : Nat) (ts : List Task) (x : Task), x ∈ tasksOutSpec npid bm n ts → n ≤ x.id
  | n, [], x, hx => by simp [tasksOutSpec] at hx
  | n, t :: ts, x, hx => by
    simp only [tasksOutSpec, List.mem_cons] at hx
    rcases hx with rfl | hx
    · simp
    · exact Nat.le_of_succ_le (tasksOutSpec_id_ge npid bm (n + 1) ts x hx)

theorem bucketsOutSpec_id_ge (npid : Nat) :
    ∀ (n : Nat) (bs : List Bucket) (x : Bucket), x ∈ bucketsOutSpec npid n bs → n ≤ x.id
  | n, [], x, hx => by simp [bucketsOutSpec] at hx
  | n, b :: bs, x, hx => by
    simp only [bucketsOutSpec, List.mem_cons] at hx
    rcases hx with rfl | hx
    · simp
    · exact Nat.le_of_succ_le (bucketsOutSpec_id_ge npid (n + 1) bs x hx)

theorem labelTasksOutSpec_id_ge (tm : IdMap) :
    ∀ (n : Nat) (l : List LabelTask) (x : LabelTask), x ∈ labelTasksOutSpec tm n l → n ≤ x.id
  | n, [], x, hx => by simp [labelTasksOutSpec] at hx
  | n, lt :: l, x, hx => by
    simp only [labelTasksOutSpec, List.mem_cons] at hx
    rcases hx with rfl | hx
    · simp
    · exact Nat.le_of_succ_le (labelTasksOutSpec_id_ge tm (n + 1) l x hx)

theorem commentsOutSpec_id_ge (tm : IdMap) :
    ∀ (n : Nat) (l : List TaskComment) (x : TaskComment), x ∈ commentsOutSpec tm n l → n ≤ x.id
  | n, [], x, hx => by simp [commentsOutSpec] at hx
  | n, c :: l, x, hx => by
    simp only [commentsOutSpec, List.mem_cons] at hx
    rcases hx with rfl | hx
    · simp
    · exact Nat.le_of_succ_le (commentsOutSpec_id_ge tm (n + 1) l x hx)

theorem relationsOutSpec_id_ge (tm : IdMap) :
    ∀ (n : Nat) (l : List TaskRelation) (x : TaskRelation), x ∈ relationsOutSpec tm n l → n ≤ x.id
  | n, [], x, hx => by simp [relationsOutSpec] at hx
  | n, r :: l, x, hx => by
    cases hL : List.lookup r.otherTaskID tm with
    | none =>
      simp only [relationsOutSpec, hL] at hx
      exact relationsOutSpec_id_ge tm n l x hx
    | some v =>
      simp only [relationsOutSpec, hL, List.mem_cons] at hx
      rcases hx with rfl | hx
      · simp
      · exact Nat.le_of_succ_le (relationsOutSpec_id_ge tm (n + 1) l x hx)

theorem projectUsersOutSpec_id_ge (npid : Nat) :
    ∀ (n : Nat) (l : List ProjectUser) (x : ProjectUser), x ∈ projectUsersOutSpec npid n l → n ≤ x.id
  | n, [], x, hx => by simp [projectUsersOutSpec] at hx
  | n, u :: l, x, hx => by
    simp only [projectUsersOutSpec, List.mem_cons] at hx
    rcases hx with rfl | hx
    · simp
    · exact Nat.le_of_succ_le (projectUsersOutSpec_id_ge npid (n + 1) l x hx)

theorem teamProjectsOutSpec_id_ge (npid : Nat) :
    ∀ (n : Nat) (l : List TeamProject) (x : TeamProject), x ∈ teamProjectsOutSpec npid n l → n ≤ x.id
  | n, [], x, hx => by simp [teamProjectsOutSpec] at hx
  | n, t :: l, x, hx => by
    simp only [teamProjectsOutSpec, List.mem_cons] at hx
    rcases hx with rfl | hx
    · simp
    · exact Nat.le_of_succ_le (teamProjectsOutSpec_id_ge npid (n + 1) l x hx)

theorem linkSharesOutSpec_id_ge (env : Env) (npid : Nat) :
    ∀ (n rc : Nat) (l : List LinkSharing) (x : LinkSharing),
    x ∈ linkSharesOutSpec env npid n rc l → n ≤ x.id
  | n, rc, [], x, hx => by simp [linkSharesOutSpec] at hx
  | n, rc, sh :: l, x, hx => by
    simp only [linkSharesOutSpec, List.mem_cons] at hx
    rcases hx with rfl | hx
    · simp
    · exact Nat.le_of_succ_le (linkSharesOutSpec_id_ge env npid (n + 1) (rc + 1) l x hx)

theorem attachmentsOutSpec_id_ge (env : Env) (tm : IdMap) :
    ∀ (n : Nat) (l : List TaskAttachment) (x : TaskAttachment),
    x ∈ attachmentsOutSpec env tm n l → n ≤ x.id
  | n, [], x, hx => by simp [attachmentsOutSpec] at hx
  | n, a :: l, x, hx => by
    cases hsk : attachmentSkippedB env tm a with
    | true =>
      simp only [attachmentsOutSpec, hsk, if_true] at hx
      exact attachmentsOutSpec_id_ge env tm n l x hx
    | false =>
      simp only [attachmentsOutSpec, hsk, Bool.false_eq_true, if_false, List.mem_cons] at hx
      rcases hx with rfl | hx
      · simp
      · exact le_trans (by omega) (attachmentsOutSpec_id_ge env tm (n + 2) l x hx)

theorem labelTasksOutSpec_mem (tm : IdMap) :
    ∀ (n : Nat) (l : List LabelTask) (x : LabelTask), x ∈ labelTasksOutSpec tm n l →
    ∃ lt, lt ∈ l ∧ x.taskID = mapGetD tm lt.taskID
  | n, [], x, hx => by simp [labelTasksOutSpec] at hx
  | n, lt :: l, x, hx => by
    simp only [labelTasksOutSpec, List.mem_cons] at hx
    rcases hx with rfl | hx
    · exact ⟨lt, List.mem_cons_self _ _, rfl⟩
    · obtain ⟨lt2, h1, h2⟩ := labelTasksOutSpec_mem tm (n + 1) l x hx
      exact ⟨lt2, List.mem_cons_of_mem _ h1, h2⟩

theorem commentsOutSpec_mem (tm : IdMap) :
    ∀ (n : Nat) (l : List TaskComment) (x : TaskComment), x ∈ commentsOutSpec tm n l →
    ∃ c, c ∈ l ∧ x.taskID = mapGetD tm c.taskID
  | n, [], x, hx => by simp [commentsOutSpec] at hx
  | n, c :: l, x, hx => by
    simp only [commentsOutSpec, List.mem_cons] at hx
    rcases hx with rfl | hx
    · exact ⟨c, List.mem_cons_self _ _, rfl⟩
    · obtain ⟨c2, h1, h2⟩ := commentsOutSpec_mem tm (n + 1) l x hx
      exact ⟨c2, List.mem_cons_of_mem _ h1, h2⟩

theorem relationsOutSpec_mem (tm : IdMap) :
    ∀ (n : Nat) (l : List TaskRelation) (x : TaskRelation), x ∈ relationsOutSpec tm n l →
    ∃ r, r ∈ l ∧ x.taskID = mapGetD tm r.taskID
  | n, [], x, hx => by simp [relationsOutSpec] at hx
  | n, r :: l, x, hx => by
    cases hL : List.lookup r.otherTaskID tm with
    | none =>
      simp only [relationsOutSpec, hL] at hx
      obtain ⟨r2, h1, h2⟩ := relationsOutSpec_mem tm n l x hx
      exact ⟨r2, List.mem_cons_of_mem _ h1, h2⟩
    | some v =>
      simp only [relationsOutSpec, hL, List.mem_cons] at hx
      rcases hx with rfl | hx
      · exact ⟨r, List.mem_cons_self _ _, rfl⟩
      · obtain ⟨r2, h1, h2⟩ := relationsOutSpec_mem tm (n + 1) l x hx
        exact ⟨r2, List.mem_cons_of_mem _ h1, h2⟩

theorem lookup_taskMapSpecFrom_not_mem :
    ∀ (n : Nat) (ts : List Task) (m : IdMap) (k : Nat), k ∉ ts.map (fun t => t.id) →
    List.lookup k (taskMapSpecFrom n ts m) = List.lookup k m
  | _, [], _, _, _ => rfl
  | n, t :: ts, m, k, hk => by
    simp only [List.map_cons, List.mem_cons, not_or] at hk
    rw [taskMapSpecFrom, lookup_taskMapSpecFrom_not_mem (n + 1) ts _ k hk.2]
    simp [List.lookup, beq_false_of_ne hk.1]

theorem lookup_taskMapSpecFrom_mem :
    ∀ (n : Nat) (ts : List Task) (m : IdMap) (k : Nat), k ∈ ts.map (fun t => t.id) →
    ∃ j, List.lookup k (taskMapSpecFrom n ts m) = some j ∧ n ≤ j ∧ j < n + ts.length
  | n, [], m, k, hk => by simp at hk
  | n, t :: ts, m, k, hk => by
    by_cases hmem : k ∈ ts.map (fun t => t.id)
    · obtain ⟨j, hj, hj1, hj2⟩ := lookup_taskMapSpecFrom_mem (n + 1) ts ((t.id, n) :: m) k hmem
      exact ⟨j, by rw [taskMapSpecFrom]; exact hj, Nat.le_of_succ_le hj1, by
        simp only [List.length_cons]; omega⟩
    · have hk1 : k = t.id := by
        simp only [List.map_cons, List.mem_cons] at hk
        tauto
      rw [taskMapSpecFrom, lookup_taskMapSpecFrom_not_mem (n + 1) ts _ k hmem]
      refine ⟨n, ?_, Nat.le_refl n, by simp only [List.length_cons]; omega⟩
      simp [List.lookup, hk1]

theorem relationsOutSpec_forall₂ (tm : IdMap) :
    ∀ (n : Nat) (l : List TaskRelation),
    List.Forall₂
      (fun r r2 => r2.taskID = mapGetD tm r.taskID ∧ r2.otherTaskID = mapGetD tm r.otherTaskID ∧
        r2.relationKind = r.relationKind)
      (l.filter (fun r => mapHas tm r.otherTaskID)) (relationsOutSpec tm n l)
  | _, [] => List.Forall₂.nil
  | n, r :: rest => by
    cases hL : List.lookup r.otherTaskID tm with
    | none =>
      have hhas : mapHas tm r.otherTaskID = false := by simp [mapHas, hL]
      simp only [relationsOutSpec, hL, List.filter_cons, hhas, Bool.false_eq_true, if_false]
      exact relationsOutSpec_forall₂ tm n rest
    | some v =>
      have hhas : mapHas tm r.otherTaskID = true := by simp [mapHas, hL]
      simp only [relationsOutSpec, hL, List.filter_cons, hhas, if_true]
      exact List.Forall₂.cons (by simp [mapGetD, hL]) (relationsOutSpec_forall₂ tm (n + 1) rest)

theorem attachmentsOutSpec_forall₂ (env : Env) (tm : IdMap) :
    ∀ (n : Nat) (l : List TaskAttachment),
    List.Forall₂ (fun a a2 => a2.taskID = mapGetD tm a.taskID ∧ n ≤ a2.id)
      (l.filter (fun a => !attachmentSkippedB env tm a)) (attachmentsOutSpec env tm n l)
  | _, [] => List.Forall₂.nil
  | n, a :: rest => by
    cases hsk : attachmentSkippedB env tm a with
    | true =>
      simp only [attachmentsOutSpec, hsk, if_true, List.filter_cons, Bool.not_true,
        Bool.false_eq_true, if_false]
      exact attachmentsOutSpec_forall₂ env tm n rest
    | false =>
      simp only [attachmentsOutSpec, hsk, Bool.false_eq_true, if_false, List.filter_cons,
        Bool.not_false, if_true]
      refine List.Forall₂.cons (by simp) ?_
      exact (attachmentsOutSpec_forall₂ env tm (n + 2) rest).imp
        (fun a2 b2 h => ⟨h.1, by omega⟩)

theorem linkSharesOutSpec_fresh (env : Env) (npid : Nat)
    (h40 : ∀ n k, (env.makeRandomString n k).length = n) :
    ∀ (n rc : Nat) (l : List LinkSharing),
    (∀ k s, s ∈ l → env.makeRandomString 40 k ≠ s.hash) →
    List.Forall₂
      (fun s s2 => s2.projectID = npid ∧ n ≤ s2.id ∧ s2.hash.length = 40 ∧ s2.hash ≠ s.hash)
      l (linkSharesOutSpec env npid n rc l)
  | _, _, [], _ => List.Forall₂.nil
  | n, rc, sh :: rest, hfresh => by
    refine List.Forall₂.cons
      ⟨rfl, Nat.le_refl n, h40 40 rc, hfresh rc sh (List.mem_cons_self _ _)⟩ ?_
    refine (linkSharesOutSpec_fresh env npid h40 (n + 1) (rc + 1) rest
      (fun k s hs => hfresh k s (List.mem_cons_of_mem _ hs))).imp
      (fun a2 b2 h => ⟨h.1, by omega, h.2.2⟩)

theorem createProjectStep_ok (env : Env) (doer : Nat) (ld : ProjectDuplicate) (st : DupState)
    {proj : Project} {st1 : DupState} (h : createProjectStep env doer ld st = (proj, st1, none)) :
    st1 = { st with newProject := some proj, nextId := st.nextId + 1 } ∧
    proj.id = st.nextId := by
  unfold createProjectStep createProject at h
  cases hc : env.createProjectResult with
  | none =>
    rw [hc] at h
    simp [assignId, Prod.mk.injEq] at h
    obtain ⟨h1, h2⟩ := h
    subst h1; subst h2
    simp
  | some e =>
    rw [hc] at h
    cases he : IsErrProjectIdentifierIsNotUnique e with
    | false => simp [he, assignId] at h
    | true =>
      simp [he, assignId, Prod.mk.injEq] at h
      obtain ⟨h1, h2⟩ := h
      subst h1; subst h2
      simp

theorem closeFile_eq (d : Option Nat) (st : DupState) :
    closeFile d st = { st with openFiles := (closeFile d st).openFiles } := by
  cases d <;> rfl

theorem dupBackground_frame (env : Env) (proj : Project) (st : DupState) :
    ((dupBackground env proj st).1).newTasks = st.newTasks ∧
    ((dupBackground env proj st).1).newBuckets = st.newBuckets ∧
    ((dupBackground env proj st).1).newAttachments = st.newAttachments ∧
    ((dupBackground env proj st).1).newLabelTasks = st.newLabelTasks ∧
    ((dupBackground env proj st).1).newAssignees = st.newAssignees ∧
    ((dupBackground env proj st).1).newComments = st.newComments ∧
    ((dupBackground env proj st).1).newRelations = st.newRelations ∧
    ((dupBackground env proj st).1).newProjectUsers = st.newProjectUsers ∧
    ((dupBackground env proj st).1).newTeamProjects = st.newTeamProjects ∧
    ((dupBackground env proj st).1).newLinkShares = st.newLinkShares ∧
    ((dupBackground env proj st).1).rngCounter = st.rngCounter := by
  unfold dupBackground setProjectBackgroundRow
  cases h0 : proj.backgroundFileID == 0 with
  | true => simp
  | false =>
    simp only [Bool.false_eq_true, if_false]
    cases h1 : env.loadFileMetaResult proj.backgroundFileID with
    | some e => simp
    | none =>
      cases h2 : env.loadFileResult proj.backgroundFileID with
      | some e => simp
      | none =>
        cases h3 : env.createFileErr with
        | some e => simp [assignId]
        | none =>
          simp only [assignId]
          cases h4 : (env.getUnsplashPhoto proj.backgroundFileID).2.isSome &&
              IsErrFileIsNotUnsplashFile
                ((env.getUnsplashPhoto proj.backgroundFileID).2.getD (DupError.other 0)) with
          | true => simp
          | false =>
            simp only [Bool.false_eq_true, if_false]
            cases h5 : (env.getUnsplashPhoto proj.backgroundFileID).1 with
            | some u => simp
            | none => simp

theorem setProjectBackgroundRow_projIds (projID nfid : Nat) (blur : String) (st : DupState) :
    (setProjectBackgroundRow projID nfid blur st).newProject.map (fun p => p.id) =
      st.newProject.map (fun p => p.id) := by
  unfold setProjectBackgroundRow
  cases st.newProject with
  | none => rfl
  | some p =>
    dsimp [Option.map]
    split <;> rfl

theorem setProjectBackgroundRow_photos (projID nfid : Nat) (blur : String) (st : DupState) :
    (setProjectBackgroundRow projID nfid blur st).newUnsplashPhotos = st.newUnsplashPhotos :=
  rfl

theorem setProjectBackgroundRow_nextId (projID nfid : Nat) (blur : String) (st : DupState) :
    (setProjectBackgroundRow projID nfid blur st).nextId = st.nextId :=
  rfl

theorem dupBackground_ids (env : Env) (proj : Project) (st : DupState) (lo : Nat)
    (hlo : lo ≤ st.nextId) :
    lo ≤ ((dupBackground env proj st).1).nextId ∧
    (∀ u ∈ ((dupBackground env proj st).1).newUnsplashPhotos,
      u ∈ st.newUnsplashPhotos ∨ lo ≤ u.id) ∧
    ((dupBackground env proj st).1).newProject.map (fun p => p.id) =
      st.newProject.map (fun p => p.id) := by
  unfold dupBackground
  cases h0 : proj.backgroundFileID == 0 with
  | true => exact ⟨hlo, fun u hu => Or.inl hu, rfl⟩
  | false =>
    simp only [Bool.false_eq_true, if_false]
    cases h1 : env.loadFileMetaResult proj.backgroundFileID with
    | some e => exact ⟨hlo, fun u hu => Or.inl hu, rfl⟩
    | none =>
      cases h2 : env.loadFileResult proj.backgroundFileID with
      | some e => exact ⟨hlo, fun u hu => Or.inl hu, rfl⟩
      | none =>
        cases h3 : env.createFileErr with
        | some e => exact ⟨hlo, fun u hu => Or.inl hu, rfl⟩
        | none =>
          simp only [assignId]
          cases h4 : (env.getUnsplashPhoto proj.backgroundFileID).2.isSome &&
              IsErrFileIsNotUnsplashFile
                ((env.getUnsplashPhoto proj.backgroundFileID).2.getD (DupError.other 0)) with
          | true =>
            refine ⟨by simp; omega, fun u hu => Or.inl (by simpa using hu), by simp⟩
          | false =>
            simp only [Bool.false_eq_true, if_false]
            cases h5 : (env.getUnsplashPhoto proj.backgroundFileID).1 with
            | some u =>
              refine ⟨?_, ?_, ?_⟩
              · simp [setProjectBackgroundRow_nextId]; omega
              · intro x hx
                simp only [setProjectBackgroundRow_photos] at hx
                simp at hx
                rcases hx with hx | hx
                · exact Or.inl hx
                · right; rw [hx]; simp; omega
              · simp [setProjectBackgroundRow_projIds]
            | none =>
              refine ⟨?_, ?_, ?_⟩
              · simp [setProjectBackgroundRow_nextId]; omega
              · intro x hx
                simp only [setProjectBackgroundRow_photos] at hx
                exact Or.inl (by simpa using hx)
              · simp [setProjectBackgroundRow_projIds]

theorem dupTasksLoop_no_fatal (env : Env) (npid : Nat) (bm : IdMap) :
    ∀ (ts : List Task) (m : IdMap) (olds : List Nat) (st : DupState),
    (∀ t ∈ ts, env.createTaskErr t.id = none) →
    (dupTasksLoop env npid bm ts m olds st).2.2.2 = none
  | [], _, _, _, _ => rfl
  | t :: ts, m, olds, st, hok => by
    have hc : env.createTaskErr t.id = none := hok t (List.mem_cons_self _ _)
    simp only [dupTasksLoop, hc]
    exact dupTasksLoop_no_fatal env npid bm ts _ _ _
      (fun x hx => hok x (List.mem_cons_of_mem _ hx))

theorem dupAssigneesLoop_no_fatal (env : Env) (tm : IdMap) (npid : Nat) :
    ∀ (l : List TaskAssginee) (st : DupState),
    (∀ a ∈ l, assigneeFatalErr env a = none) →
    (dupAssigneesLoop env tm npid l st).2 = none
  | [], _, _ => rfl
  | a :: rest, st, hok => by
    have ha := hok a (List.mem_cons_self _ _)
    have htl : ∀ b ∈ rest, assigneeFatalErr env b = none :=
      fun b hb => hok b (List.mem_cons_of_mem _ hb)
    cases hc : env.addAssigneeResult a.userID with
    | none =>
      simp only [dupAssigneesLoop, hc]
      exact dupAssigneesLoop_no_fatal env tm npid rest _ htl
    | some e =>
      cases he : IsErrUserDoesNotHaveAccessToProject e with
      | true =>
        simp only [dupAssigneesLoop, hc, he, if_true]
        exact dupAssigneesLoop_no_fatal env tm npid rest _ htl
      | false =>
        exfalso
        simp [assigneeFatalErr, hc, he] at ha

theorem dupAttachmentsLoop_no_fatal (env : Env) (tm : IdMap) :
    ∀ (l : List TaskAttachment) (st : DupState),
    (∀ b ∈ l, attachmentFatalErr env tm b = none) →
    (dupAttachmentsLoop env tm l st).2 = none
  | [], _, _ => rfl
  | a :: rest, st, hok => by
    have ha := hok a (List.mem_cons_self _ _)
    have htl : ∀ b ∈ rest, attachmentFatalErr env tm b = none :=
      fun b hb => hok b (List.mem_cons_of_mem _ hb)
    cases hL : List.lookup a.taskID tm with
    | none =>
      simp only [dupAttachmentsLoop, hL]
      exact dupAttachmentsLoop_no_fatal env tm rest st htl
    | some v =>
      cases hm : env.loadFileMetaResult a.fileID with
      | some e =>
        cases hne : IsErrFileDoesNotExist e with
        | true =>
          simp only [dupAttachmentsLoop, hL, hm, hne, if_true]
          exact dupAttachmentsLoop_no_fatal env tm rest st htl
        | false =>
          exfalso
          simp [attachmentFatalErr, mapHas, hL, hm, hne] at ha
      | none =>
        cases hload : env.loadFileResult a.fileID with
        | some e =>
          exfalso
          simp [attachmentFatalErr, mapHas, hL, hm, hload] at ha
        | none =>
          cases hna : env.newAttachmentErr a.id with
          | some e =>
            exfalso
            simp [attachmentFatalErr, mapHas, hL, hm, hload, hna] at ha
          | none =>
            simp only [dupAttachmentsLoop, hL, hm, hload, hna]
            exact dupAttachmentsLoop_no_fatal env tm rest _ htl

theorem dupAttachmentsLoop_fatal (env : Env) (tm : IdMap) :
    ∀ (pre : List TaskAttachment) (a : TaskAttachment) (post : List TaskAttachment)
      (st : DupState) (e : DupError),
    (∀ b ∈ pre, attachmentFatalErr env tm b = none) →
    attachmentFatalErr env tm a = some e →
    ∃ stE, dupAttachmentsLoop env tm (pre ++ a :: post) st = (stE, some e)
  | [], a, post, st, e, _, ha => by
    rw [List.nil_append]
    cases hL : List.lookup a.taskID tm with
    | none => exfalso; simp [attachmentFatalErr, mapHas, hL] at ha
    | some v =>
      cases hm : env.loadFileMetaResult a.fileID with
      | some e2 =>
        cases hne : IsErrFileDoesNotExist e2 with
        | true => exfalso; simp [attachmentFatalErr, mapHas, hL, hm, hne] at ha
        | false =>
          have he : e2 = e := by
            simp [attachmentFatalErr, mapHas, hL, hm, hne] at ha
            exact ha
          subst he
          exact ⟨st, by simp only [dupAttachmentsLoop, hL, hm, hne, Bool.false_eq_true,
            if_false]⟩
      | none =>
        cases hload : env.loadFileResult a.fileID with
        | some e2 =>
          have he : e2 = e := by
            simp [attachmentFatalErr, mapHas, hL, hm, hload] at ha
            exact ha
          subst he
          exact ⟨st, by simp only [dupAttachmentsLoop, hL, hm, hload]⟩
        | none =>
          cases hna : env.newAttachmentErr a.id with
          | some e2 =>
            have he : e2 = e := by
              simp [attachmentFatalErr, mapHas, hL, hm, hload, hna] at ha
              exact ha
            subst he
            exact ⟨{ st with openFiles := a.fileID :: st.openFiles },
              by simp only [dupAttachmentsLoop, hL, hm, hload, hna]⟩
          | none => exfalso; simp [attachmentFatalErr, mapHas, hL, hm, hload, hna] at ha
  | b :: pre, a, post, st, e, hpre, ha => by
    have hb := hpre b (List.mem_cons_self _ _)
    have htl : ∀ x ∈ pre, attachmentFatalErr env tm x = none :=
      fun x hx => hpre x (List.mem_cons_of_mem _ hx)
    rw [List.cons_append]
    cases hL : List.lookup b.taskID tm with
    | none =>
      simp only [dupAttachmentsLoop, hL]
      exact dupAttachmentsLoop_fatal env tm pre a post st e htl ha
    | some v =>
      cases hm : env.loadFileMetaResult b.fileID with
      | some e2 =>
        cases hne : IsErrFileDoesNotExist e2 with
        | true =>
          simp only [dupAttachmentsLoop, hL, hm, hne, if_true]
          exact dupAttachmentsLoop_fatal env tm pre a post st e htl ha
        | false =>
          exfalso
          simp [attachmentFatalErr, mapHas, hL, hm, hne] at hb
      | none =>
        cases hload : env.loadFileResult b.fileID with
        | some e2 =>
          exfalso
          simp [attachmentFatalErr, mapHas, hL, hm, hload] at hb
        | none =>
          cases hna : env.newAttachmentErr b.id with
          | some e2 =>
            exfalso
            simp [attachmentFatalErr, mapHas, hL, hm, hload, hna] at hb
          | none =>
            simp only [dupAttachmentsLoop, hL, hm, hload, hna]
            exact dupAttachmentsLoop_fatal env tm pre a post _ e htl ha

theorem duplicateTasks_no_fatal (env : Env) (lpid npid : Nat) (bm : IdMap) (st : DupState)
    (htask : ∀ t ∈ getTasksForProjects env lpid, env.createTaskErr t.id = none)
    (hatt : ∀ b ∈ getTaskAttachmentsByTaskIDs env
        ((getTasksForProjects env lpid).map (fun t => t.id)),
      attachmentFatalErr env (taskMapSpecFrom st.nextId (getTasksForProjects env lpid) []) b =
        none)
    (hass : ∀ a ∈ assigneesByTaskIDs env ((getTasksForProjects env lpid).map (fun t => t.id)),
      assigneeFatalErr env a = none) :
    (duplicateTasks env lpid npid bm st).2 = none := by
  rw [duplicateTasks]
  cases hlen : (getTasksForProjects env lpid).length == 0 with
  | true => simp
  | false =>
    simp only [Bool.false_eq_true, if_false]
    rcases hT : dupTasksLoop env npid bm (getTasksForProjects env lpid) [] [] st with
      ⟨tm, olds, stT, eT⟩
    have heT : eT = none := by
      have h9 := dupTasksLoop_no_fatal env npid bm (getTasksForProjects env lpid) [] [] st htask
      rw [hT] at h9
      exact h9
    subst heT
    obtain ⟨h1, h2, -⟩ := dupTasksLoop_ok env npid bm _ _ _ _ hT
    rw [List.nil_append] at h2
    subst h1; subst h2
    try dsimp only
    rcases hA : dupAttachmentsLoop env
        (taskMapSpecFrom st.nextId (getTasksForProjects env lpid) [])
        (getTaskAttachmentsByTaskIDs env ((getTasksForProjects env lpid).map (fun t => t.id)))
        stT with ⟨stA, eA⟩
    have heA : eA = none := by
      have h9 := dupAttachmentsLoop_no_fatal env _ _ stT hatt
      rw [hA] at h9
      exact h9
    subst heA
    try rw [hA]
    try dsimp only
    rcases hAs : dupAssigneesLoop env
        (taskMapSpecFrom st.nextId (getTasksForProjects env lpid) []) npid
        (assigneesByTaskIDs env ((getTasksForProjects env lpid).map (fun t => t.id)))
        (dupLabelTasksLoop (taskMapSpecFrom st.nextId (getTasksForProjects env lpid) [])
          (labelTasksByTaskIDs env ((getTasksForProjects env lpid).map (fun t => t.id))) stA)
        with ⟨stAs, eAs⟩
    have heAs : eAs = none := by
      have h9 := dupAssigneesLoop_no_fatal env
        (taskMapSpecFrom st.nextId (getTasksForProjects env lpid) []) npid
        (assigneesByTaskIDs env ((getTasksForProjects env lpid).map (fun t => t.id)))
        (dupLabelTasksLoop (taskMapSpecFrom st.nextId (getTasksForProjects env lpid) [])
          (labelTasksByTaskIDs env ((getTasksForProjects env lpid).map (fun t => t.id))) stA)
        hass
      rw [hAs] at h9
      exact h9
    subst heAs
    try rw [hAs]
    try dsimp only
    try rfl

theorem duplicateTasks_newTasks (env : Env) (lpid npid : Nat) (bm : IdMap) (st : DupState)
    {st' : DupState} (h : duplicateTasks env lpid npid bm st = (st', none)) :
    st'.newTasks = st.newTasks ++ tasksOutSpec npid bm st.nextId (getTasksForProjects env lpid) := by
  rcases duplicateTasks_ok env lpid npid bm st h with
    ⟨hnil, rfl⟩ | ⟨stT, stA, stAs, hT, hA, hAs, rfl⟩
  · rw [hnil]; simp [tasksOutSpec]
  · obtain ⟨-, -, hstT⟩ := dupTasksLoop_ok env npid bm _ _ _ _ hT
    have hstA := dupAttachmentsLoop_ok env _ _ _ hA
    have hstAs := dupAssigneesLoop_ok env _ npid _ _ hAs
    rw [dupRelationsLoop_eq, dupCommentsLoop_eq, hstAs, dupLabelTasksLoop_eq, hstA, hstT]
    try simp

theorem duplicateTasks_rows (env : Env) (lpid npid : Nat) (bm : IdMap) (st : DupState)
    {st' : DupState} (h : duplicateTasks env lpid npid bm st = (st', none)) :
    ∃ nL nC nR,
      st.nextId ≤ nL ∧ st.nextId ≤ nC ∧ st.nextId ≤ nR ∧
      st'.newTasks = st.newTasks ++
        tasksOutSpec npid bm st.nextId (getTasksForProjects env lpid) ∧
      st'.newLabelTasks = st.newLabelTasks ++
        labelTasksOutSpec (taskMapSpecFrom st.nextId (getTasksForProjects env lpid) []) nL
          (labelTasksByTaskIDs env ((getTasksForProjects env lpid).map (fun t => t.id))) ∧
      st'.newComments = st.newComments ++
        commentsOutSpec (taskMapSpecFrom st.nextId (getTasksForProjects env lpid) []) nC
          (commentsByTaskIDs env ((getTasksForProjects env lpid).map (fun t => t.id))) ∧
      st'.newRelations = st.newRelations ++
        relationsOutSpec (taskMapSpecFrom st.nextId (getTasksForProjects env lpid) []) nR
          (relationsByTaskIDs env ((getTasksForProjects env lpid).map (fun t => t.id))) := by
  rcases duplicateTasks_ok env lpid npid bm st h with
    ⟨hnil, heq⟩ | ⟨stT, stA, stAs, hT, hA, hAs, heq⟩
  · refine ⟨st.nextId, st.nextId, st.nextId, Nat.le_refl _, Nat.le_refl _, Nat.le_refl _,
      ?_, ?_, ?_, ?_⟩ <;>
      simp [heq, hnil, tasksOutSpec, labelTasksByTaskIDs, commentsByTaskIDs,
        relationsByTaskIDs, labelTasksOutSpec, commentsOutSpec, relationsOutSpec,
        List.filter_eq_nil_iff]
  · obtain ⟨-, -, hstT⟩ := dupTasksLoop_ok env npid bm _ _ _ _ hT
    have hstA := dupAttachmentsLoop_ok env _ _ _ hA
    have hstAs := dupAssigneesLoop_ok env _ npid _ _ hAs
    refine ⟨stA.nextId, stAs.nextId,
      stAs.nextId +
        (commentsByTaskIDs env ((getTasksForProjects env lpid).map (fun t => t.id))).length,
      ?_, ?_, ?_, ?_, ?_, ?_, ?_⟩
    · rw [hstA, hstT]; simp; omega
    · rw [hstAs, dupLabelTasksLoop_eq, hstA, hstT]; simp; omega
    · rw [hstAs, dupLabelTasksLoop_eq, hstA, hstT]; simp; omega
    · rw [heq, dupRelationsLoop_eq, dupCommentsLoop_eq, hstAs, dupLabelTasksLoop_eq, hstA,
        hstT]
      try simp
    · rw [heq, dupRelationsLoop_eq, dupCommentsLoop_eq, hstAs, dupLabelTasksLoop_eq, hstA,
        hstT]
      try simp
    · rw [heq, dupRelationsLoop_eq, dupCommentsLoop_eq, hstAs, dupLabelTasksLoop_eq, hstA,
        hstT]
      try simp
    · rw [heq, dupRelationsLoop_eq, dupCommentsLoop_eq, hstAs, dupLabelTasksLoop_eq, hstA,
        hstT]
      try simp

theorem duplicateTasks_attachments (env : Env) (lpid npid : Nat) (bm : IdMap) (st : DupState)
    {st' : DupState} (h : duplicateTasks env lpid npid bm st = (st', none)) :
    ∃ nA, st.nextId ≤ nA ∧
      st'.newAttachments = st.newAttachments ++
        attachmentsOutSpec env (taskMapSpecFrom st.nextId (getTasksForProjects env lpid) []) nA
          (getTaskAttachmentsByTaskIDs env
            ((getTasksForProjects env lpid).map (fun t => t.id))) := by
  rcases duplicateTasks_ok env lpid npid bm st h with
    ⟨hnil, heq⟩ | ⟨stT, stA, stAs, hT, hA, hAs, heq⟩
  · refine ⟨st.nextId, Nat.le_refl _, ?_⟩
    have hq : getTaskAttachmentsByTaskIDs env
        ((getTasksForProjects env lpid).map (fun t => t.id)) = [] := by
      rw [hnil]
      simp [getTaskAttachmentsByTaskIDs, List.filter_eq_nil_iff]
    rw [heq, hq]
    simp [attachmentsOutSpec]
  · obtain ⟨-, -, hstT⟩ := dupTasksLoop_ok env npid bm _ _ _ _ hT
    have hstA := dupAttachmentsLoop_ok env _ _ _ hA
    have hstAs := dupAssigneesLoop_ok env _ npid _ _ hAs
    refine ⟨stT.nextId, by rw [hstT]; simp, ?_⟩
    rw [heq, dupRelationsLoop_eq, dupCommentsLoop_eq, hstAs, dupLabelTasksLoop_eq, hstA,
      hstT]
    try simp

theorem duplicateTasks_outer (env : Env) (lpid npid : Nat) (bm : IdMap) (st : DupState)
    {st' : DupState} (h : duplicateTasks env lpid npid bm st = (st', none)) :
    st'.newLinkShares = st.newLinkShares ∧ st'.newProjectUsers = st.newProjectUsers ∧
    st'.newTeamProjects = st.newTeamProjects ∧ st'.newBuckets = st.newBuckets ∧
    st'.newProject = st.newProject ∧ st'.newUnsplashPhotos = st.newUnsplashPhotos ∧
    st'.rngCounter = st.rngCounter ∧ st'.openFiles = st.openFiles ∧
    st.nextId ≤ st'.nextId := by
  rcases duplicateTasks_ok env lpid npid bm st h with
    ⟨hnil, heq⟩ | ⟨stT, stA, stAs, hT, hA, hAs, heq⟩
  · rw [heq]
    exact ⟨rfl, rfl, rfl, rfl, rfl, rfl, rfl, rfl, Nat.le_refl _⟩
  · obtain ⟨-, -, hstT⟩ := dupTasksLoop_ok env npid bm _ _ _ _ hT
    have hstA := dupAttachmentsLoop_ok env _ _ _ hA
    have hstAs := dupAssigneesLoop_ok env _ npid _ _ hAs
    rw [heq, dupRelationsLoop_eq, dupCommentsLoop_eq, hstAs, dupLabelTasksLoop_eq, hstA,
      hstT]
    refine ⟨by simp, by simp, by simp, by simp, by simp, by simp, by simp, by simp, ?_⟩
    simp
    omega

/-! ## The claims -/

/-- Claim C7: the access gate `ProjectDuplicate.CanCreate` permits (returns `true` with
no error) exactly when the read check on the source project answers `true` without
error and the create check on the target namespace answers `true` without error; and
it fails closed: when the read check errors or answers `false`, the gate's outcome
does not depend on the create check at all (the create check is never consulted).  The
gate is query-only: in this embedding it neither takes nor produces a session state,
so it performs no mutation. -/
theorem c7_access_gate (ld : ProjectDuplicate)
    (canRead : Nat → Bool × Nat × Option DupError)
    (canCreateProject : Nat → Nat → Bool × Option DupError) :
    (projectDuplicateCanCreate ld canRead canCreateProject = (true, none) ↔
      ((canRead ld.projectID).1 = true ∧ (canRead ld.projectID).2.2 = none ∧
        canCreateProject ld.projectID ld.namespaceID = (true, none))) ∧
    (∀ c c2 : Nat → Nat → Bool × Option DupError,
      ((canRead ld.projectID).2.2.isSome = true ∨ (canRead ld.projectID).1 = false) →
      projectDuplicateCanCreate ld canRead c = projectDuplicateCanCreate ld canRead c2) := by
  constructor
  · unfold projectDuplicateCanCreate
    cases h1 : (canRead ld.projectID).2.2 <;> cases h2 : (canRead ld.projectID).1 <;>
      simp [h1, h2]
  · intro c c2 hfail
    unfold projectDuplicateCanCreate
    rcases hfail with hf | hf
    · simp [hf]
    · simp [hf]

/-- Witness for C7: a concrete instance of the gate equivalence, plus the
fail-closed independence discharged at a read check that errors. -/
theorem c7_access_gate_witness :
    (projectDuplicateCanCreate sampleLd (fun _ => (true, 2, none)) (fun _ _ => (true, none)) =
        (true, none) ↔
      ((true : Bool) = true ∧ (none : Option DupError) = none ∧
        ((true : Bool), (none : Option DupError)) = (true, none))) ∧
    projectDuplicateCanCreate sampleLd (fun _ => (true, 2, some (DupError.other 1)))
        (fun _ _ => (true, none)) =
      projectDuplicateCanCreate sampleLd (fun _ => (true, 2, some (DupError.other 1)))
        (fun _ _ => (false, none)) :=
  ⟨(c7_access_gate sampleLd (fun _ => (true, 2, none)) (fun _ _ => (true, none))).1,
   (c7_access_gate sampleLd (fun _ => (true, 2, some (DupError.other 1)))
      (fun _ _ => (true, none))).2 _ _ (Or.inl (by decide))⟩

/-- Claim C3 (what the code actually does): with a plain-upload background — the
external-image attribution lookup reports the file-is-not-unsplash-file error class —
the duplication ABORTS with that error, while a lookup failing with any other error
class (for example a database error) is silently swallowed and the duplication
succeeds.  This is the reverse of the specified tolerance: the source condition
`err != nil && files.IsErrFileIsNotUnsplashFile(err)` is missing the negation on the
class check. -/
theorem c3_unsplash_error_inverted :
    (projectDuplicateCreate
        { sampleEnv with
            getUnsplashPhoto := fun _ => (none, some DupError.fileIsNotUnsplashFile) }
        7 sampleLd (initialState 100)).2 = some DupError.fileIsNotUnsplashFile ∧
    (projectDuplicateCreate
        { sampleEnv with getUnsplashPhoto := fun _ => (none, some (DupError.other 3)) }
        7 sampleLd (initialState 100)).2 = none := by
  constructor <;> decide

/-- Claim C9 (what the code actually does): when `NewAttachment` fails after the
attachment's source file content was opened, the duplication aborts with that error
and the opened source handle (file 41) is left open — the attachment loop has no
deferred close, unlike the background file.  On the benign run every handle is
closed. -/
theorem c9_attachment_handle_leak :
    (projectDuplicateCreate
        { sampleEnv with
            newAttachmentErr := fun aid => if aid == 31 then some (DupError.other 7) else none }
        7 sampleLd (initialState 100)).2 = some (DupError.other 7) ∧
    (projectDuplicateCreate
        { sampleEnv with
            newAttachmentErr := fun aid => if aid == 31 then some (DupError.other 7) else none }
        7 sampleLd (initialState 100)).1.openFiles = [41] ∧
    (projectDuplicateCreate sampleEnv 7 sampleLd (initialState 100)).1.openFiles = [] := by
  refine ⟨by decide, by decide, by decide⟩

/-- Claim C4: when `CreateProject` reports an identifier collision, the duplication
recovers locally — the step succeeds with the identifier cleared to the empty string,
the destination project record exists, the collision error is not surfaced, and
`Create` continues with the remaining phases; any other project-creation error aborts
`Create` immediately, returning that error with nothing written. -/
theorem c4_identifier_collision (env : Env) (doer : Nat) (ld : ProjectDuplicate)
    (st : DupState) :
    (env.createProjectResult = some DupError.identifierNotUnique →
      ∃ proj st1, createProjectStep env doer ld st = (proj, st1, none) ∧
        proj.identifier = "" ∧ st1.newProject = some proj ∧
        projectDuplicateCreate env doer ld st = createRest env ld.projectID proj st1) ∧
    (∀ e, env.createProjectResult = some e → IsErrProjectIdentifierIsNotUnique e = false →
      projectDuplicateCreate env doer ld st = (st, some e)) := by
  constructor
  · intro hc
    refine ⟨{ ld.project with id := st.nextId, identifier := "", ownerID := doer },
            { st with
                newProject :=
                  some { ld.project with id := st.nextId, identifier := "", ownerID := doer },
                nextId := st.nextId + 1 },
            ?_, rfl, rfl, ?_⟩ <;>
      simp [projectDuplicateCreate, createProjectStep, createProject, hc, assignId,
        IsErrProjectIdentifierIsNotUnique]
  · intro e hc he
    simp [projectDuplicateCreate, createProjectStep, createProject, hc, he]

/-- Witness for C4: both hypotheses discharged on concrete environments — the
collision environment recovers and still creates the project; the plain-error
environment aborts with that error and writes nothing. -/
theorem c4_identifier_collision_witness :
    (∃ proj st1,
      createProjectStep
          { sampleEnv with createProjectResult := some DupError.identifierNotUnique }
          7 sampleLd (initialState 100) = (proj, st1, none) ∧
      proj.identifier = "" ∧ st1.newProject = some proj ∧
      projectDuplicateCreate
          { sampleEnv with createProjectResult := some DupError.identifierNotUnique }
          7 sampleLd (initialState 100) =
        createRest { sampleEnv with createProjectResult := some DupError.identifierNotUnique }
          sampleLd.projectID proj st1) ∧
    projectDuplicateCreate { sampleEnv with createProjectResult := some (DupError.other 5) }
        7 sampleLd (initialState 100) = (initialState 100, some (DupError.other 5)) :=
  ⟨(c4_identifier_collision
      { sampleEnv with createProjectResult := some DupError.identifierNotUnique }
      7 sampleLd (initialState 100)).1 rfl,
   (c4_identifier_collision { sampleEnv with createProjectResult := some (DupError.other 5) }
      7 sampleLd (initialState 100)).2 (DupError.other 5) rfl (by decide)⟩

/-- Claim C1: a successful duplication creates exactly as many destination tasks as the
source project has, in listing order; each destination task belongs to the destination
project, its bucket reference is the bucket-id map applied to the source task's bucket
(the zero/unassigned bucket when the source bucket id has no entry in the map), and
its calendar-sync UID is cleared to the empty string before creation. -/
theorem c1_tasks_copied (env : Env) (doer : Nat) (ld : ProjectDuplicate) (n0 : Nat)
    {st' : DupState}
    (h : projectDuplicateCreate env doer ld (initialState n0) = (st', none)) :
    ∃ proj st1 st2,
      createProjectStep env doer ld (initialState n0) = (proj, st1, none) ∧
      dupBucketsLoop env proj.id (bucketsByProject env ld.projectID) [] st1 =
        (bucketMapSpecFrom st1.nextId (bucketsByProject env ld.projectID) [], st2, none) ∧
      st'.newTasks.length = (getTasksForProjects env ld.projectID).length ∧
      List.Forall₂ (fun t t2 => t2.projectID = proj.id ∧
          t2.bucketID =
            mapGetD (bucketMapSpecFrom st1.nextId (bucketsByProject env ld.projectID) [])
              t.bucketID ∧
          t2.uid = "")
        (getTasksForProjects env ld.projectID) st'.newTasks := by
  obtain ⟨proj, st1, st2, st3, st4, deferred, hP, hB, hD, hBg, hst'⟩ :=
    projectDuplicateCreate_ok env doer ld (initialState n0) h
  obtain ⟨hst1, -⟩ := createProjectStep_ok env doer ld (initialState n0) hP
  obtain ⟨-, hst2⟩ := dupBucketsLoop_ok env proj.id _ _ _ hB
  have hempty : st2.newTasks = [] := by rw [hst2, hst1]; rfl
  have hbg1 : (dupBackground env proj st3).1 = st4 := by rw [hBg]
  have hTasks : st'.newTasks =
      tasksOutSpec proj.id
        (bucketMapSpecFrom st1.nextId (bucketsByProject env ld.projectID) [])
        st2.nextId (getTasksForProjects env ld.projectID) := by
    have h6 : st'.newTasks = st4.newTasks := by
      rw [hst', closeFile_eq]
      simp [dupLinkSharesLoop_eq, dupTeamProjectsLoop_eq, dupProjectUsersLoop_eq]
    rw [h6, ← hbg1, (dupBackground_frame env proj st3).1,
      duplicateTasks_newTasks env ld.projectID proj.id _ st2 hD, hempty, List.nil_append]
  refine ⟨proj, st1, st2, hP, hB, ?_, ?_⟩
  · rw [hTasks]
    exact tasksOutSpec_length _ _ _ _
  · rw [hTasks]
    exact tasksOutSpec_forall₂ _ _ _ _

/-- Witness for C1: the sample duplication succeeds and the theorem applies — the
three source tasks yield three destination tasks with remapped buckets and cleared
UIDs. -/
theorem c1_tasks_copied_witness :
    ∃ proj st1 st2,
      createProjectStep sampleEnv 7 sampleLd (initialState 100) = (proj, st1, none) ∧
      dupBucketsLoop sampleEnv proj.id (bucketsByProject sampleEnv sampleLd.projectID) [] st1 =
        (bucketMapSpecFrom st1.nextId (bucketsByProject sampleEnv sampleLd.projectID) [],
         st2, none) ∧
      ((projectDuplicateCreate sampleEnv 7 sampleLd (initialState 100)).1).newTasks.length =
        (getTasksForProjects sampleEnv sampleLd.projectID).length ∧
      List.Forall₂ (fun t t2 => t2.projectID = proj.id ∧
          t2.bucketID =
            mapGetD (bucketMapSpecFrom st1.nextId (bucketsByProject sampleEnv sampleLd.projectID) [])
              t.bucketID ∧
          t2.uid = "")
        (getTasksForProjects sampleEnv sampleLd.projectID)
        ((projectDuplicateCreate sampleEnv 7 sampleLd (initialState 100)).1).newTasks :=
  c1_tasks_copied sampleEnv 7 sampleLd 100 (by decide)

/-- Claim C2: of the task relations loaded for the source project's tasks, exactly those
whose `other_task_id` is a key of the old→new task map are inserted into the
destination — a relation whose other endpoint lies outside the source project's task
set is skipped and contributes no destination row — and each inserted relation carries
both endpoints rewritten through the map and a fresh (cleared-then-assigned)
identity. -/
theorem c2_relation_filter (env : Env) (lpid npid : Nat) (bm : IdMap) (st : DupState)
    {st' : DupState} (h : duplicateTasks env lpid npid bm st = (st', none))
    (hempty : st.newRelations = []) :
    ∃ nR, st.nextId ≤ nR ∧
      List.Forall₂ (fun r r2 =>
          r2.taskID =
            mapGetD (taskMapSpecFrom st.nextId (getTasksForProjects env lpid) []) r.taskID ∧
          r2.otherTaskID =
            mapGetD (taskMapSpecFrom st.nextId (getTasksForProjects env lpid) [])
              r.otherTaskID ∧
          r2.relationKind = r.relationKind)
        ((relationsByTaskIDs env ((getTasksForProjects env lpid).map (fun t => t.id))).filter
          (fun r =>
            mapHas (taskMapSpecFrom st.nextId (getTasksForProjects env lpid) [])
              r.otherTaskID))
        st'.newRelations ∧
      ∀ r2 ∈ st'.newRelations, nR ≤ r2.id := by
  obtain ⟨nL, nC, nR, -, -, hnR, -, -, -, hrel⟩ := duplicateTasks_rows env lpid npid bm st h
  rw [hempty, List.nil_append] at hrel
  refine ⟨nR, hnR, ?_, ?_⟩
  · rw [hrel]
    exact relationsOutSpec_forall₂ _ _ _
  · intro r2 hr2
    rw [hrel] at hr2
    exact relationsOutSpec_id_ge _ _ _ _ hr2

/-- Witness for C2: in the sample environment the in-project relation 11 → 12 is
kept and remapped while the cross-project relation 11 → 77 is dropped. -/
theorem c2_relation_filter_witness :
    ∃ nR, (initialState 100).nextId ≤ nR ∧
      List.Forall₂ (fun r r2 =>
          r2.taskID =
            mapGetD (taskMapSpecFrom (initialState 100).nextId
              (getTasksForProjects sampleEnv 1) []) r.taskID ∧
          r2.otherTaskID =
            mapGetD (taskMapSpecFrom (initialState 100).nextId
              (getTasksForProjects sampleEnv 1) []) r.otherTaskID ∧
          r2.relationKind = r.relationKind)
        ((relationsByTaskIDs sampleEnv
            ((getTasksForProjects sampleEnv 1).map (fun t => t.id))).filter
          (fun r =>
            mapHas (taskMapSpecFrom (initialState 100).nextId
              (getTasksForProjects sampleEnv 1) []) r.otherTaskID))
        ((duplicateTasks sampleEnv 1 200 [(21, 301), (22, 302)]
            (initialState 100)).1).newRelations ∧
      ∀ r2 ∈ ((duplicateTasks sampleEnv 1 200 [(21, 301), (22, 302)]
          (initialState 100)).1).newRelations, nR ≤ r2.id :=
  c2_relation_filter sampleEnv 1 200 [(21, 301), (22, 302)] (initialState 100)
    (by decide) (by decide)

/-- Claim C10: every label-association, comment and relation row returned by the queries
restricted to the recorded old task ids has a task id that is a key of the old→new
task map — the existence-unchecked map reads never fall through to the zero default —
and consequently every such inserted destination row references the id of a task that
was actually created in the destination. -/
theorem c10_remap_never_defaults (env : Env) (lpid npid : Nat) (bm : IdMap)
    (st : DupState) {st' : DupState} (h : duplicateTasks env lpid npid bm st = (st', none))
    (h0 : st.newTasks = [] ∧ st.newLabelTasks = [] ∧ st.newComments = [] ∧
      st.newRelations = []) :
    (∀ lt ∈ labelTasksByTaskIDs env ((getTasksForProjects env lpid).map (fun t => t.id)),
      (List.lookup lt.taskID
        (taskMapSpecFrom st.nextId (getTasksForProjects env lpid) [])).isSome = true) ∧
    (∀ c ∈ commentsByTaskIDs env ((getTasksForProjects env lpid).map (fun t => t.id)),
      (List.lookup c.taskID
        (taskMapSpecFrom st.nextId (getTasksForProjects env lpid) [])).isSome = true) ∧
    (∀ r ∈ relationsByTaskIDs env ((getTasksForProjects env lpid).map (fun t => t.id)),
      (List.lookup r.taskID
        (taskMapSpecFrom st.nextId (getTasksForProjects env lpid) [])).isSome = true) ∧
    (∀ x ∈ st'.newLabelTasks, ∃ t2, t2 ∈ st'.newTasks ∧ x.taskID = t2.id) ∧
    (∀ x ∈ st'.newComments, ∃ t2, t2 ∈ st'.newTasks ∧ x.taskID = t2.id) ∧
    (∀ x ∈ st'.newRelations, ∃ t2, t2 ∈ st'.newTasks ∧ x.taskID = t2.id) := by
  obtain ⟨h0t, h0l, h0c, h0r⟩ := h0
  obtain ⟨nL, nC, nR, -, -, -, hTk, hLb, hCm, hRl⟩ := duplicateTasks_rows env lpid npid bm st h
  rw [h0t, List.nil_append] at hTk
  rw [h0l, List.nil_append] at hLb
  rw [h0c, List.nil_append] at hCm
  rw [h0r, List.nil_append] at hRl
  have hkey : ∀ k, k ∈ (getTasksForProjects env lpid).map (fun t => t.id) →
      ∃ j, List.lookup k (taskMapSpecFrom st.nextId (getTasksForProjects env lpid) []) =
        some j ∧ ∃ t2, t2 ∈ st'.newTasks ∧ t2.id = j := by
    intro k hk
    obtain ⟨j, hj, hj1, hj2⟩ := lookup_taskMapSpecFrom_mem st.nextId _ [] k hk
    obtain ⟨t2, ht2, hid⟩ := tasksOutSpec_mem_id npid bm st.nextId _ j hj1 hj2
    exact ⟨j, hj, t2, by rw [hTk]; exact ht2, hid⟩
  have hmemL : ∀ lt ∈ labelTasksByTaskIDs env ((getTasksForProjects env lpid).map (fun t => t.id)),
      lt.taskID ∈ (getTasksForProjects env lpid).map (fun t => t.id) := by
    intro lt hlt
    rw [labelTasksByTaskIDs, List.mem_filter] at hlt
    simpa using hlt.2
  have hmemC : ∀ c ∈ commentsByTaskIDs env ((getTasksForProjects env lpid).map (fun t => t.id)),
      c.taskID ∈ (getTasksForProjects env lpid).map (fun t => t.id) := by
    intro c hc
    rw [commentsByTaskIDs, List.mem_filter] at hc
    simpa using hc.2
  have hmemR : ∀ r ∈ relationsByTaskIDs env ((getTasksForProjects env lpid).map (fun t => t.id)),
      r.taskID ∈ (getTasksForProjects env lpid).map (fun t => t.id) := by
    intro r hr
    rw [relationsByTaskIDs, List.mem_filter] at hr
    simpa using hr.2
  refine ⟨?_, ?_, ?_, ?_, ?_, ?_⟩
  · intro lt hlt
    obtain ⟨j, hj, -⟩ := hkey lt.taskID (hmemL lt hlt)
    rw [hj]; rfl
  · intro c hc
    obtain ⟨j, hj, -⟩ := hkey c.taskID (hmemC c hc)
    rw [hj]; rfl
  · intro r hr
    obtain ⟨j, hj, -⟩ := hkey r.taskID (hmemR r hr)
    rw [hj]; rfl
  · intro x hx
    rw [hLb] at hx
    obtain ⟨lt, hlt, hxeq⟩ := labelTasksOutSpec_mem _ _ _ x hx
    obtain ⟨j, hj, t2, ht2, hid⟩ := hkey lt.taskID (hmemL lt hlt)
    exact ⟨t2, ht2, by rw [hxeq, mapGetD, hj, Option.getD_some, hid]⟩
  · intro x hx
    rw [hCm] at hx
    obtain ⟨c, hc, hxeq⟩ := commentsOutSpec_mem _ _ _ x hx
    obtain ⟨j, hj, t2, ht2, hid⟩ := hkey c.taskID (hmemC c hc)
    exact ⟨t2, ht2, by rw [hxeq, mapGetD, hj, Option.getD_some, hid]⟩
  · intro x hx
    rw [hRl] at hx
    obtain ⟨r, hr, hxeq⟩ := relationsOutSpec_mem _ _ _ x hx
    obtain ⟨j, hj, t2, ht2, hid⟩ := hkey r.taskID (hmemR r hr)
    exact ⟨t2, ht2, by rw [hxeq, mapGetD, hj, Option.getD_some, hid]⟩

/-- Witness for C10: applied to the sample duplication — the label row on the
foreign task 77 is outside the queried set, and every inserted label/comment/relation
row references a genuinely created destination task. -/
theorem c10_remap_never_defaults_witness :
    (∀ lt ∈ labelTasksByTaskIDs sampleEnv
        ((getTasksForProjects sampleEnv 1).map (fun t => t.id)),
      (List.lookup lt.taskID
        (taskMapSpecFrom (initialState 100).nextId
          (getTasksForProjects sampleEnv 1) [])).isSome = true) ∧
    (∀ c ∈ commentsByTaskIDs sampleEnv
        ((getTasksForProjects sampleEnv 1).map (fun t => t.id)),
      (List.lookup c.taskID
        (taskMapSpecFrom (initialState 100).nextId
          (getTasksForProjects sampleEnv 1) [])).isSome = true) ∧
    (∀ r ∈ relationsByTaskIDs sampleEnv
        ((getTasksForProjects sampleEnv 1).map (fun t => t.id)),
      (List.lookup r.taskID
        (taskMapSpecFrom (initialState 100).nextId
          (getTasksForProjects sampleEnv 1) [])).isSome = true) ∧
    (∀ x ∈ ((duplicateTasks sampleEnv 1 200 [(21, 301), (22, 302)]
        (initialState 100)).1).newLabelTasks,
      ∃ t2, t2 ∈ ((duplicateTasks sampleEnv 1 200 [(21, 301), (22, 302)]
        (initialState 100)).1).newTasks ∧ x.taskID = t2.id) ∧
    (∀ x ∈ ((duplicateTasks sampleEnv 1 200 [(21, 301), (22, 302)]
        (initialState 100)).1).newComments,
      ∃ t2, t2 ∈ ((duplicateTasks sampleEnv 1 200 [(21, 301), (22, 302)]
        (initialState 100)).1).newTasks ∧ x.taskID = t2.id) ∧
    (∀ x ∈ ((duplicateTasks sampleEnv 1 200 [(21, 301), (22, 302)]
        (initialState 100)).1).newRelations,
      ∃ t2, t2 ∈ ((duplicateTasks sampleEnv 1 200 [(21, 301), (22, 302)]
        (initialState 100)).1).newTasks ∧ x.taskID = t2.id) :=
  c10_remap_never_defaults sampleEnv 1 200 [(21, 301), (22, 302)] (initialState 100)
    (by decide) (by decide)

/-- Claim C5: attachment error semantics.  First part: when no loaded attachment hits a
fatal error — an attachment whose task id is unmapped or whose file metadata reports
file-does-not-exist is merely skipped — the task-graph duplication completes
successfully, and the destination attachment set is exactly the image of the
non-skipped attachments (task reference remapped, fresh identity): the skipped ones
are absent, all others copied.  Second part: when a loaded attachment hits a metadata
load error other than file-does-not-exist, a content load error, or a creation error,
and the attachments ahead of it are fatal-free, the whole duplication aborts with
exactly that error. -/
theorem c5_attachment_skip :
    (∀ (env : Env) (lpid npid : Nat) (bm : IdMap) (st : DupState),
      (∀ t ∈ getTasksForProjects env lpid, env.createTaskErr t.id = none) →
      (∀ b ∈ getTaskAttachmentsByTaskIDs env
          ((getTasksForProjects env lpid).map (fun t => t.id)),
        attachmentFatalErr env
          (taskMapSpecFrom st.nextId (getTasksForProjects env lpid) []) b = none) →
      (∀ a ∈ assigneesByTaskIDs env ((getTasksForProjects env lpid).map (fun t => t.id)),
        assigneeFatalErr env a = none) →
      (duplicateTasks env lpid npid bm st).2 = none ∧
      ∃ nA, st.nextId ≤ nA ∧
        ((duplicateTasks env lpid npid bm st).1).newAttachments = st.newAttachments ++
          attachmentsOutSpec env
            (taskMapSpecFrom st.nextId (getTasksForProjects env lpid) []) nA
            (getTaskAttachmentsByTaskIDs env
              ((getTasksForProjects env lpid).map (fun t => t.id))) ∧
        List.Forall₂ (fun a a2 =>
            a2.taskID =
              mapGetD (taskMapSpecFrom st.nextId (getTasksForProjects env lpid) [])
                a.taskID ∧ nA ≤ a2.id)
          ((getTaskAttachmentsByTaskIDs env
              ((getTasksForProjects env lpid).map (fun t => t.id))).filter
            (fun a => !attachmentSkippedB env
              (taskMapSpecFrom st.nextId (getTasksForProjects env lpid) []) a))
          (attachmentsOutSpec env
            (taskMapSpecFrom st.nextId (getTasksForProjects env lpid) []) nA
            (getTaskAttachmentsByTaskIDs env
              ((getTasksForProjects env lpid).map (fun t => t.id))))) ∧
    (∀ (env : Env) (lpid npid : Nat) (bm : IdMap) (st : DupState)
      (pre post : List TaskAttachment) (a : TaskAttachment) (e : DupError),
      (∀ t ∈ getTasksForProjects env lpid, env.createTaskErr t.id = none) →
      getTaskAttachmentsByTaskIDs env ((getTasksForProjects env lpid).map (fun t => t.id)) =
        pre ++ a :: post →
      (∀ b ∈ pre, attachmentFatalErr env
        (taskMapSpecFrom st.nextId (getTasksForProjects env lpid) []) b = none) →
      attachmentFatalErr env (taskMapSpecFrom st.nextId (getTasksForProjects env lpid) []) a =
        some e →
      ∃ stE, duplicateTasks env lpid npid bm st = (stE, some e)) := by
  constructor
  · intro env lpid npid bm st htask hatt hass
    have hsucc := duplicateTasks_no_fatal env lpid npid bm st htask hatt hass
    have hD : duplicateTasks env lpid npid bm st =
        ((duplicateTasks env lpid npid bm st).1, none) :=
      Prod.ext_iff.mpr ⟨rfl, hsucc⟩
    refine ⟨hsucc, ?_⟩
    obtain ⟨nA, hnA, hval⟩ := duplicateTasks_attachments env lpid npid bm st hD
    exact ⟨nA, hnA, hval, attachmentsOutSpec_forall₂ env _ nA _⟩
  · intro env lpid npid bm st pre post a e htask hq hpre ha
    rw [duplicateTasks]
    cases hlen : (getTasksForProjects env lpid).length == 0 with
    | true =>
      exfalso
      have hnil : getTasksForProjects env lpid = [] :=
        List.length_eq_zero.mp (by simpa using hlen)
      rw [hnil] at hq
      have hq0 : getTaskAttachmentsByTaskIDs env (([] : List Task).map (fun t => t.id)) = [] := by
        simp [getTaskAttachmentsByTaskIDs, List.filter_eq_nil_iff]
      rw [hq0] at hq
      exact List.cons_ne_nil a post (List.append_eq_nil.mp hq.symm).2
    | false =>
      simp only [Bool.false_eq_true, if_false]
      rcases hT : dupTasksLoop env npid bm (getTasksForProjects env lpid) [] [] st with
        ⟨tm, olds, stT, eT⟩
      have heT : eT = none := by
        have h9 := dupTasksLoop_no_fatal env npid bm (getTasksForProjects env lpid) [] [] st
          htask
        rw [hT] at h9
        exact h9
      subst heT
      obtain ⟨h1, h2, -⟩ := dupTasksLoop_ok env npid bm _ _ _ _ hT
      rw [List.nil_append] at h2
      subst h1; subst h2
      try dsimp only
      obtain ⟨stE, hE⟩ := dupAttachmentsLoop_fatal env
        (taskMapSpecFrom st.nextId (getTasksForProjects env lpid) []) pre a post stT e hpre ha
      rw [hq, hE]
      exact ⟨stE, rfl⟩

/-- Witness for C5: first part applied to the sample run (attachment 32 is skipped
because its file does not exist, attachment 31 is copied); second part applied to a
variant whose file 41 metadata load fails with a database-class error, aborting with
exactly that error. -/
theorem c5_attachment_skip_witness :
    ((duplicateTasks sampleEnv 1 200 [(21, 301), (22, 302)] (initialState 100)).2 = none ∧
      ∃ nA, (initialState 100).nextId ≤ nA ∧
        ((duplicateTasks sampleEnv 1 200 [(21, 301), (22, 302)]
            (initialState 100)).1).newAttachments =
          (initialState 100).newAttachments ++
          attachmentsOutSpec sampleEnv
            (taskMapSpecFrom (initialState 100).nextId (getTasksForProjects sampleEnv 1) []) nA
            (getTaskAttachmentsByTaskIDs sampleEnv
              ((getTasksForProjects sampleEnv 1).map (fun t => t.id))) ∧
        List.Forall₂ (fun a a2 =>
            a2.taskID =
              mapGetD (taskMapSpecFrom (initialState 100).nextId
                (getTasksForProjects sampleEnv 1) []) a.taskID ∧ nA ≤ a2.id)
          ((getTaskAttachmentsByTaskIDs sampleEnv
              ((getTasksForProjects sampleEnv 1).map (fun t => t.id))).filter
            (fun a => !attachmentSkippedB sampleEnv
              (taskMapSpecFrom (initialState 100).nextId
                (getTasksForProjects sampleEnv 1) []) a))
          (attachmentsOutSpec sampleEnv
            (taskMapSpecFrom (initialState 100).nextId (getTasksForProjects sampleEnv 1) []) nA
            (getTaskAttachmentsByTaskIDs sampleEnv
              ((getTasksForProjects sampleEnv 1).map (fun t => t.id))))) ∧
    (∃ stE, duplicateTasks
        { sampleEnv with loadFileMetaResult := fun fid =>
            if fid == 41 then some (DupError.other 9)
            else if fid == 42 then some DupError.fileDoesNotExist else none }
        1 200 [(21, 301), (22, 302)] (initialState 100) = (stE, some (DupError.other 9))) :=
  ⟨c5_attachment_skip.1 sampleEnv 1 200 [(21, 301), (22, 302)] (initialState 100)
      (by decide) (by decide) (by decide),
   c5_attachment_skip.2
      { sampleEnv with loadFileMetaResult := fun fid =>
          if fid == 41 then some (DupError.other 9)
          else if fid == 42 then some DupError.fileDoesNotExist else none }
      1 200 [(21, 301), (22, 302)] (initialState 100) []
      [{ id := 32, taskID := 12, fileID := 42 }] { id := 31, taskID := 11, fileID := 41 }
      (DupError.other 9) (by decide) (by decide) (by decide) (by decide)⟩

/-- Claim C6: a successful duplication inserts exactly one destination link-share row
per source link-share row, each pointing at the destination project, with a fresh
(cleared-then-assigned) identity and a secret regenerated by the 40-character random
generator — so, for a generator that produces fresh values (never equal to an existing
secret), no destination secret equals its corresponding source secret, and every
destination secret has length 40. -/
theorem c6_link_share_secrets (env : Env) (doer : Nat) (ld : ProjectDuplicate) (n0 : Nat)
    {st' : DupState}
    (h : projectDuplicateCreate env doer ld (initialState n0) = (st', none))
    (h40 : ∀ n k, (env.makeRandomString n k).length = n)
    (hfresh : ∀ k s, s ∈ env.linkShares → env.makeRandomString 40 k ≠ s.hash) :
    ∃ proj st1,
      createProjectStep env doer ld (initialState n0) = (proj, st1, none) ∧
      st'.newLinkShares.length = (linkSharesByProject env ld.projectID).length ∧
      List.Forall₂ (fun s s2 => s2.projectID = proj.id ∧ n0 ≤ s2.id ∧
          s2.hash.length = 40 ∧ s2.hash ≠ s.hash)
        (linkSharesByProject env ld.projectID) st'.newLinkShares := by
  obtain ⟨proj, st1, st2, st3, st4, deferred, hP, hB, hD, hBg, hst'⟩ :=
    projectDuplicateCreate_ok env doer ld (initialState n0) h
  obtain ⟨hst1, -⟩ := createProjectStep_ok env doer ld (initialState n0) hP
  obtain ⟨-, hst2⟩ := dupBucketsLoop_ok env proj.id _ _ _ hB
  have hbg1 : (dupBackground env proj st3).1 = st4 := by rw [hBg]
  obtain ⟨hsh3, -, -, -, -, -, -, -, hnext3⟩ := duplicateTasks_outer env _ _ _ _ hD
  have hsh4 : st4.newLinkShares = [] := by
    rw [← hbg1, (dupBackground_frame env proj st3).2.2.2.2.2.2.2.2.2.1, hsh3, hst2, hst1]
    rfl
  have hn4 : n0 ≤ st4.nextId := by
    rw [← hbg1]
    refine (dupBackground_ids env proj st3 n0 ?_).1
    refine le_trans ?_ hnext3
    rw [hst2, hst1]
    simp [initialState]
    omega
  have hval : st'.newLinkShares =
      linkSharesOutSpec env proj.id
        (dupTeamProjectsLoop proj.id (teamProjectsByProject env ld.projectID)
          (dupProjectUsersLoop proj.id (projectUsersByProject env ld.projectID) st4)).nextId
        (dupTeamProjectsLoop proj.id (teamProjectsByProject env ld.projectID)
          (dupProjectUsersLoop proj.id (projectUsersByProject env ld.projectID) st4)).rngCounter
        (linkSharesByProject env ld.projectID) := by
    rw [hst', closeFile_eq]
    simp [dupLinkSharesLoop_eq, dupTeamProjectsLoop_eq, dupProjectUsersLoop_eq, hsh4]
  have hnT : n0 ≤ (dupTeamProjectsLoop proj.id (teamProjectsByProject env ld.projectID)
      (dupProjectUsersLoop proj.id (projectUsersByProject env ld.projectID) st4)).nextId := by
    rw [dupTeamProjectsLoop_eq, dupProjectUsersLoop_eq]
    simp
    omega
  have hF := linkSharesOutSpec_fresh env proj.id h40
    (dupTeamProjectsLoop proj.id (teamProjectsByProject env ld.projectID)
      (dupProjectUsersLoop proj.id (projectUsersByProject env ld.projectID) st4)).nextId
    (dupTeamProjectsLoop proj.id (teamProjectsByProject env ld.projectID)
      (dupProjectUsersLoop proj.id (projectUsersByProject env ld.projectID) st4)).rngCounter
    (linkSharesByProject env ld.projectID)
    (fun k s hs => hfresh k s (by
      rw [linkSharesByProject, List.mem_filter] at hs
      exact hs.1))
  refine ⟨proj, st1, hP, ?_, ?_⟩
  · rw [hval]
    exact (List.Forall₂.length_eq hF).symm
  · rw [hval]
    exact hF.imp (fun s s2 hx => ⟨hx.1, le_trans hnT hx.2.1, hx.2.2⟩)

/-- Witness for C6: the sample run has two source link shares and the constant
40-character generator differs from both source secrets. -/
theorem c6_link_share_secrets_witness :
    ∃ proj st1,
      createProjectStep sampleEnv 7 sampleLd (initialState 100) = (proj, st1, none) ∧
      ((projectDuplicateCreate sampleEnv 7 sampleLd (initialState 100)).1).newLinkShares.length =
        (linkSharesByProject sampleEnv sampleLd.projectID).length ∧
      List.Forall₂ (fun s s2 => s2.projectID = proj.id ∧ 100 ≤ s2.id ∧
          s2.hash.length = 40 ∧ s2.hash ≠ s.hash)
        (linkSharesByProject sampleEnv sampleLd.projectID)
        ((projectDuplicateCreate sampleEnv 7 sampleLd (initialState 100)).1).newLinkShares :=
  c6_link_share_secrets sampleEnv 7 sampleLd 100 (by decide)
    (fun n k => by
      show (String.mk (List.replicate n 'a')).length = n
      simp [String.length])
    (fun k s hs => by
      have hgen : sampleEnv.makeRandomString 40 k = String.mk (List.replicate 40 'a') := rfl
      rw [hgen]
      have hss : s = { id := 47, projectID := 1, hash := "oldsecret1" } ∨
          s = { id := 48, projectID := 1, hash := "oldsecret2" } := by
        simpa [sampleEnv] using hs
      rcases hss with rfl | rfl <;> decide)

/-- Claim C8: starting from a well-formed session (every source primary identity below
the auto-increment counter), a successful duplication writes destination rows —
project, buckets, tasks, attachments, label associations, comments, relations, user
rights, team rights, link shares, external-image attribution — whose primary
identities are all at or above the initial counter (every identity field was cleared
before insertion, so insertion assigned a fresh one), hence no destination row shares
a primary identity with any source row, nor with the source attribution row. -/
theorem c8_identity_freshness (env : Env) (doer : Nat) (ld : ProjectDuplicate) (n0 : Nat)
    {st' : DupState} (hlow : envIdsBelow env ld n0)
    (h : projectDuplicateCreate env doer ld (initialState n0) = (st', none)) :
    (∀ i ∈ destinationIds st', n0 ≤ i) ∧
    (∀ i ∈ destinationIds st', ∀ j ∈ sourceIds env ld, i ≠ j) ∧
    (∀ fid u, (env.getUnsplashPhoto fid).1 = some u →
      ∀ i ∈ destinationIds st', i ≠ u.id) := by
  obtain ⟨proj, st1, st2, st3, st4, deferred, hP, hB, hD, hBg, hst'⟩ :=
    projectDuplicateCreate_ok env doer ld (initialState n0) h
  obtain ⟨hst1, hprojid⟩ := createProjectStep_ok env doer ld (initialState n0) hP
  obtain ⟨-, hst2⟩ := dupBucketsLoop_ok env proj.id _ _ _ hB
  have hbg1 : (dupBackground env proj st3).1 = st4 := by rw [hBg]
  obtain ⟨nL, nC, nR, hnL, hnC, hnR, hTk, hLb, hCm, hRl⟩ :=
    duplicateTasks_rows env ld.projectID proj.id _ st2 hD
  obtain ⟨nA, hnA, hAt⟩ := duplicateTasks_attachments env ld.projectID proj.id _ st2 hD
  obtain ⟨oSh, oUs, oTm, oBk, oPr, oUp, -, -, hnext3⟩ :=
    duplicateTasks_outer env ld.projectID proj.id _ st2 hD
  have hn2 : n0 ≤ st2.nextId := by
    rw [hst2, hst1]; simp [initialState]; omega
  have hn3 : n0 ≤ st3.nextId := le_trans hn2 hnext3
  obtain ⟨hn4L, hUpMem, hPrMap⟩ := dupBackground_ids env proj st3 n0 hn3
  rw [hbg1] at hn4L hUpMem hPrMap
  have bgF := dupBackground_frame env proj st3
  rw [hbg1] at bgF
  -- empties at st2
  have e2U : st2.newProjectUsers = [] := by rw [hst2, hst1]; rfl
  have e2T : st2.newTeamProjects = [] := by rw [hst2, hst1]; rfl
  have e2S : st2.newLinkShares = [] := by rw [hst2, hst1]; rfl
  have e2Up : st2.newUnsplashPhotos = [] := by rw [hst2, hst1]; rfl
  have e2Tk : st2.newTasks = [] := by rw [hst2, hst1]; rfl
  have e2At : st2.newAttachments = [] := by rw [hst2, hst1]; rfl
  have e2Lb : st2.newLabelTasks = [] := by rw [hst2, hst1]; rfl
  have e2Cm : st2.newComments = [] := by rw [hst2, hst1]; rfl
  have e2Rl : st2.newRelations = [] := by rw [hst2, hst1]; rfl
  -- empties at st4
  have e4U : st4.newProjectUsers = [] := by rw [bgF.2.2.2.2.2.2.2.1, oUs, e2U]
  have e4T : st4.newTeamProjects = [] := by rw [bgF.2.2.2.2.2.2.2.2.1, oTm, e2T]
  have e4S : st4.newLinkShares = [] := by rw [bgF.2.2.2.2.2.2.2.2.2.1, oSh, e2S]
  -- field values of st'
  have hfld : st'.newProject = st4.newProject ∧
      st'.newBuckets = st4.newBuckets ∧ st'.newTasks = st4.newTasks ∧
      st'.newAttachments = st4.newAttachments ∧ st'.newLabelTasks = st4.newLabelTasks ∧
      st'.newComments = st4.newComments ∧ st'.newRelations = st4.newRelations ∧
      st'.newUnsplashPhotos = st4.newUnsplashPhotos ∧
      st'.newProjectUsers =
        projectUsersOutSpec proj.id st4.nextId (projectUsersByProject env ld.projectID) ∧
      st'.newTeamProjects =
        teamProjectsOutSpec proj.id
          (dupProjectUsersLoop proj.id (projectUsersByProject env ld.projectID) st4).nextId
          (teamProjectsByProject env ld.projectID) ∧
      st'.newLinkShares =
        linkSharesOutSpec env proj.id
          (dupTeamProjectsLoop proj.id (teamProjectsByProject env ld.projectID)
            (dupProjectUsersLoop proj.id (projectUsersByProject env ld.projectID) st4)).nextId
          (dupTeamProjectsLoop proj.id (teamProjectsByProject env ld.projectID)
            (dupProjectUsersLoop proj.id (projectUsersByProject env ld.projectID) st4)).rngCounter
          (linkSharesByProject env ld.projectID) := by
    rw [hst', closeFile_eq]
    refine ⟨?_, ?_, ?_, ?_, ?_, ?_, ?_, ?_, ?_, ?_, ?_⟩ <;>
      simp [dupLinkSharesLoop_eq, dupTeamProjectsLoop_eq, dupProjectUsersLoop_eq, e4U, e4T,
        e4S]
  have hnU : n0 ≤ st4.nextId := hn4L
  have hnT : n0 ≤
      (dupProjectUsersLoop proj.id (projectUsersByProject env ld.projectID) st4).nextId := by
    rw [dupProjectUsersLoop_eq]; simp; omega
  have hnS : n0 ≤
      (dupTeamProjectsLoop proj.id (teamProjectsByProject env ld.projectID)
        (dupProjectUsersLoop proj.id (projectUsersByProject env ld.projectID) st4)).nextId := by
    rw [dupTeamProjectsLoop_eq, dupProjectUsersLoop_eq]; simp; omega
  -- the main bound
  have hmain : ∀ i ∈ destinationIds st', n0 ≤ i := by
    intro i hi
    rw [destinationIds] at hi
    simp only [List.mem_append] at hi
    rcases hi with ((((((((((hi | hi) | hi) | hi) | hi) | hi) | hi) | hi) | hi) | hi) | hi)
    · -- project
      rcases hp4 : st4.newProject with - | p
      · rw [hfld.1, hp4] at hi; simp at hi
      · rw [hfld.1, hp4] at hi
        simp at hi
        have : some p.id = some proj.id := by
          have h5 : st3.newProject = some proj := by
            rw [oPr, hst2, hst1]
          rw [hp4, h5] at hPrMap
          simpa using hPrMap
        have hpid : p.id = proj.id := by simpa using this
        rw [hi, hpid, hprojid]
        simp [initialState]
    · -- buckets
      rw [hfld.2.1, bgF.2.1, oBk, hst2, hst1] at hi
      simp only [List.mem_map] at hi
      obtain ⟨b, hb, rfl⟩ := hi
      simp [initialState] at hb
      exact le_trans (Nat.le_succ n0) (bucketsOutSpec_id_ge proj.id _ _ _ hb)
    · -- tasks
      rw [hfld.2.2.1, bgF.1, hTk, e2Tk, List.nil_append] at hi
      simp only [List.mem_map] at hi
      obtain ⟨t, ht, rfl⟩ := hi
      exact le_trans hn2 (tasksOutSpec_id_ge _ _ _ _ _ ht)
    · -- attachments
      rw [hfld.2.2.2.1, bgF.2.2.1, hAt, e2At, List.nil_append] at hi
      simp only [List.mem_map] at hi
      obtain ⟨a, ha, rfl⟩ := hi
      exact le_trans (le_trans hn2 hnA) (attachmentsOutSpec_id_ge _ _ _ _ _ ha)
    · -- label tasks
      rw [hfld.2.2.2.2.1, bgF.2.2.2.1, hLb, e2Lb, List.nil_append] at hi
      simp only [List.mem_map] at hi
      obtain ⟨x, hx, rfl⟩ := hi
      exact le_trans (le_trans hn2 hnL) (labelTasksOutSpec_id_ge _ _ _ _ hx)
    · -- comments
      rw [hfld.2.2.2.2.2.1, bgF.2.2.2.2.2.1, hCm, e2Cm, List.nil_append] at hi
      simp only [List.mem_map] at hi
      obtain ⟨x, hx, rfl⟩ := hi
      exact le_trans (le_trans hn2 hnC) (commentsOutSpec_id_ge _ _ _ _ hx)
    · -- relations
      rw [hfld.2.2.2.2.2.2.1, bgF.2.2.2.2.2.2.1, hRl, e2Rl, List.nil_append] at hi
      simp only [List.mem_map] at hi
      obtain ⟨x, hx, rfl⟩ := hi
      exact le_trans (le_trans hn2 hnR) (relationsOutSpec_id_ge _ _ _ _ hx)
    · -- user rights
      rw [hfld.2.2.2.2.2.2.2.2.1] at hi
      simp only [List.mem_map] at hi
      obtain ⟨x, hx, rfl⟩ := hi
      exact le_trans hnU (projectUsersOutSpec_id_ge _ _ _ _ hx)
    · -- team rights
      rw [hfld.2.2.2.2.2.2.2.2.2.1] at hi
      simp only [List.mem_map] at hi
      obtain ⟨x, hx, rfl⟩ := hi
      exact le_trans hnT (teamProjectsOutSpec_id_ge _ _ _ _ hx)
    · -- link shares
      rw [hfld.2.2.2.2.2.2.2.2.2.2] at hi
      simp only [List.mem_map] at hi
      obtain ⟨x, hx, rfl⟩ := hi
      exact le_trans hnS (linkSharesOutSpec_id_ge _ _ _ _ _ _ hx)
    · -- unsplash photos
      rw [hfld.2.2.2.2.2.2.2.1] at hi
      simp only [List.mem_map] at hi
      obtain ⟨x, hx, rfl⟩ := hi
      rcases hUpMem x hx with hmem | hge
      · rw [oUp, e2Up] at hmem
        simp at hmem
      · exact hge
  refine ⟨hmain, ?_, ?_⟩
  · intro i hi j hj
    have h1 := hmain i hi
    have h2 := hlow.1 j hj
    omega
  · intro fid u hu i hi
    have h1 := hmain i hi
    have h2 := hlow.2 fid u hu
    omega

/-- Witness for C8: in the sample run (all source identities below the counter
100) every destination identity is at least 100 and disjoint from the source
identities. -/
theorem c8_identity_freshness_witness :
    (∀ i ∈ destinationIds (projectDuplicateCreate sampleEnv 7 sampleLd (initialState 100)).1,
      100 ≤ i) ∧
    (∀ i ∈ destinationIds (projectDuplicateCreate sampleEnv 7 sampleLd (initialState 100)).1,
      ∀ j ∈ sourceIds sampleEnv sampleLd, i ≠ j) ∧
    (∀ fid u, (sampleEnv.getUnsplashPhoto fid).1 = some u →
      ∀ i ∈ destinationIds (projectDuplicateCreate sampleEnv 7 sampleLd (initialState 100)).1,
        i ≠ u.id) :=
  c8_identity_freshness sampleEnv 7 sampleLd 100
    ⟨by decide, fun fid u hu => by simp [sampleEnv] at hu⟩ (by decide)

end Vikunja
